import Mathlib

/-!
Verification development for the finance-inbox backend.

This file gives a shallow embedding of the OAuth token lifecycle and the
email ingestion / thread assembly layer of the backend
(`backend/services/google_service.py`, `backend/services/token_manager.py`,
`backend/services/connections_service.py`), and proves properties about it.

Modelling conventions:
* Python `datetime` values are modelled by `PyDateTime`: a wall-clock value
  in seconds together with an optional UTC offset (`none` = naive datetime).
* The Supabase tables `connections`, `oauth_tokens` and `emails` are
  modelled as lists of records inside `GState`; fresh row ids come from
  counters.  Bookkeeping timestamp columns (`created_at`, `updated_at`,
  `last_sync_at`) are omitted: no verified property mentions them.
* Network calls (token refresh exchange, Gmail list/get/send, profile
  lookup) are external collaborators; their outcomes enter the model as
  explicit parameters (`RefreshOutcome`, `CatOutcome`, provider message
  lists, `ReplyEnv`).
* Stored `date_sent` values are ISO-8601 UTC strings in the code and are
  compared as strings with the fallback string `'1970-01-01T00:00:00Z'`
  for missing values; on such strings lexicographic order coincides with
  chronological order, so send instants are modelled as `Nat` with
  `Option.getD 0` as the fallback.
-/

namespace FinanceInbox

/-- A Python `datetime`: wall-clock seconds plus an optional timezone
offset in seconds (`none` models a naive datetime). -/
structure PyDateTime where
  wall : Int
  tzOffset : Option Int
deriving DecidableEq, Repr

/-- `GoogleService._ensure_utc`: a naive datetime is assumed to already be
UTC (`replace(tzinfo=utc)` keeps the wall clock), an aware one is converted
to UTC (`astimezone(utc)` preserves the instant). -/
def ensure_utc (dt : PyDateTime) : PyDateTime :=
  match dt.tzOffset with
  | none => { wall := dt.wall, tzOffset := some 0 }
  | some off => { wall := dt.wall - off, tzOffset := some 0 }

/-- An aware UTC datetime at instant `t`. -/
def PyDateTime.utc (t : Int) : PyDateTime := { wall := t, tzOffset := some 0 }

/-- The 5 minute proactive-refresh margin (`timedelta(minutes=5)`). -/
def refreshMarginSeconds : Int := 300

/-- The fixed lifetime written on save (`timedelta(seconds=3600)`). -/
def tokenLifetimeSeconds : Int := 3600

/-- Python truthiness of an optional string (`None` and `""` are falsy). -/
def pyTruthy : Option String → Bool
  | none => false
  | some s => s ≠ ""

/-- Python `a or b` for an optional string `a` with string default `b`. -/
def pyOrStr (o : Option String) (d : String) : String :=
  match o with
  | some s => if s = "" then d else s
  | none => d

/-- `ConnectionStatus` from `backend/models.py`. -/
inductive ConnectionStatus
  | connected
  | disconnected
  | refresh_required
deriving DecidableEq, Repr

/-- A row of the `oauth_tokens` table (fields used by the Gmail flow). -/
structure OAuthTokenRow where
  id : Nat
  provider : String
  access_token : String
  refresh_token : Option String
  expires_at : PyDateTime
  scope : Option String
deriving DecidableEq, Repr

/-- A Gmail row of the `connections` table for one user
(`connection_provider = "gmail"` is implicit: the Slack rows never
interact with the functions modelled here). -/
structure ConnectionRow where
  user_id : String
  status : ConnectionStatus
  oauth_token_id : Option Nat
deriving DecidableEq, Repr

/-- The categorization fields optionally attached to an email row. -/
structure CatFields where
  category : String
  category_confidence : Nat
  categorized_at : Nat
  category_prompt_version : String
deriving DecidableEq, Repr

/-- A row of the `emails` table. -/
structure EmailRow where
  id : Nat
  user_id : String
  gmail_id : String
  thread_id : Option String
  subject : Option String
  from_email : Option String
  to_email : Option String
  cc_email : Option String
  bcc_email : Option String
  date_sent : Option Nat
  snippet : Option String
  body_text : Option String
  body_html : Option String
  labels : List String
  has_attachments : Bool
  size_estimate : Nat
  is_read : Bool
  category : Option String
  category_confidence : Option Nat
  categorized_at : Option Nat
  category_prompt_version : Option String
deriving DecidableEq, Repr

/-- The persistent store: the three tables plus fresh-id counters. -/
structure GState where
  connections : List ConnectionRow
  oauth_tokens : List OAuthTokenRow
  emails : List EmailRow
  nextTokenId : Nat
  nextEmailId : Nat
deriving DecidableEq, Repr

/-- Outcome of the provider's refresh-token exchange (`creds.refresh`):
either a new access token or a raised exception. -/
inductive RefreshOutcome
  | ok (newAccessToken : String)
  | err
deriving DecidableEq, Repr

/-- The Gmail connection row of a user
(`connections … .eq("user_id", uid).eq("connection_provider","gmail").single()`;
zero rows raise, which the caller catches as `None`). -/
def findConnection (s : GState) (uid : String) : Option ConnectionRow :=
  s.connections.find? (fun c => c.user_id == uid)

/-- `oauth_tokens … .eq("id", tokId).eq("provider", "google").single()`. -/
def findTokenRow (s : GState) (tokId : Nat) : Option OAuthTokenRow :=
  s.oauth_tokens.find? (fun t => t.id == tokId && t.provider == "google")

/-- `GoogleService._get_tokens_from_db`: resolve the user's Gmail
connection, then its `oauth_token_id`, then the token row. -/
def get_tokens_from_db (s : GState) (uid : String) : Option OAuthTokenRow :=
  match findConnection s uid with
  | none => none
  | some c =>
    match c.oauth_token_id with
    | none => none
    | some tokId => findTokenRow s tokId

/-- The scope string `" ".join(self.scopes)` of `GoogleService`. -/
def defaultScope : String :=
  "https://www.googleapis.com/auth/gmail.readonly https://www.googleapis.com/auth/gmail.send openid https://www.googleapis.com/auth/userinfo.email https://www.googleapis.com/auth/userinfo.profile"

/-- `GoogleService._save_tokens_to_db`: UTC-normalize the expiry, update
the existing token row (found through the connection) or insert a new one,
and point the connection at the row. -/
def save_tokens_to_db (s : GState) (uid : String) (access refresh : String)
    (expires_at : PyDateTime) (scope : String) : Bool × GState :=
  let expiresUtc := ensure_utc expires_at
  match get_tokens_from_db s uid with
  | some existing =>
    let s1 : GState :=
      { s with
        oauth_tokens := s.oauth_tokens.map (fun r =>
          if r.id = existing.id then
            { r with provider := "google", access_token := access,
                     refresh_token := some refresh, expires_at := expiresUtc,
                     scope := some scope }
          else r),
        connections := s.connections.map (fun c =>
          if c.user_id = uid then { c with oauth_token_id := some existing.id } else c) }
    (true, s1)
  | none =>
    let newId := s.nextTokenId
    let row : OAuthTokenRow :=
      { id := newId, provider := "google", access_token := access,
        refresh_token := some refresh, expires_at := expiresUtc, scope := some scope }
    let s1 : GState :=
      { s with
        oauth_tokens := s.oauth_tokens ++ [row],
        nextTokenId := newId + 1,
        connections := s.connections.map (fun c =>
          if c.user_id = uid then { c with oauth_token_id := some newId } else c) }
    (true, s1)

/-- `GoogleService._refresh_token_if_needed`: no credential means `False`;
a credential more than five minutes from expiry means `True` with no side
effect; an expiring credential without a (truthy) refresh token means
`False`; otherwise the refresh exchange runs and on success the new access
token is saved with the old refresh token, a one hour expiry and the old
scope (falling back to the default scope set). -/
def refresh_token_if_needed (s : GState) (uid : String) (now : Int)
    (net : RefreshOutcome) : Bool × GState :=
  match get_tokens_from_db s uid with
  | none => (false, s)
  | some tokens =>
    let expires_at := ensure_utc tokens.expires_at
    if now < expires_at.wall - refreshMarginSeconds then
      (true, s)
    else if ¬ pyTruthy tokens.refresh_token then
      (false, s)
    else
      match net with
      | RefreshOutcome.err => (false, s)
      | RefreshOutcome.ok newAccess =>
        save_tokens_to_db s uid newAccess (tokens.refresh_token.getD "")
          (PyDateTime.utc (now + tokenLifetimeSeconds))
          (pyOrStr tokens.scope defaultScope)

/-- `GoogleService._get_authenticated_gmail_service`, reduced to its
authentication outcome: tokens must exist, the refresh gate must pass, and
tokens must still exist after the potential refresh. -/
def get_authenticated_gmail_service (s : GState) (uid : String) (now : Int)
    (net : RefreshOutcome) : Bool × GState :=
  match get_tokens_from_db s uid with
  | none => (false, s)
  | some _ =>
    match refresh_token_if_needed s uid now net with
    | (false, s1) => (false, s1)
    | (true, s1) =>
      match get_tokens_from_db s1 uid with
      | none => (false, s1)
      | some _ => (true, s1)

/-- The public and private methods defined on `GoogleService` in
`backend/services/google_service.py`. -/
def googleServiceMethods : List String :=
  ["_ensure_utc", "_extract_email_details", "_extract_body", "_has_attachments",
   "_get_tokens_from_db", "_save_tokens_to_db", "_delete_tokens_from_db",
   "_create_gmail_connection", "_update_last_sync", "_save_email_to_db",
   "_get_emails_from_db", "_get_most_recent_email_date", "_email_exists_in_db",
   "mark_email_as_read", "mark_thread_as_read", "get_inbox_emails",
   "get_inbox_threads", "get_thread_by_id", "_format_inbox_email",
   "_format_full_email", "get_authorization_url", "handle_oauth_callback",
   "fetch_gmail_emails", "get_tokens", "clear_tokens", "is_authenticated",
   "_get_authenticated_gmail_service", "_refresh_token_if_needed",
   "get_token_info", "get_single_email_from_db", "send_email_reply"]

/-- The attribute access `google_service.refresh_access_token` performed by
`TokenManager.get_valid_token`: it succeeds (and the call would run the
refresh gate) only when `GoogleService` actually defines such a method;
otherwise Python raises `AttributeError`, modelled as `none`. -/
def call_refresh_access_token (s : GState) (uid : String) (now : Int)
    (net : RefreshOutcome) : Option (Bool × GState) :=
  if googleServiceMethods.contains "refresh_access_token" then
    some (refresh_token_if_needed s uid now net)
  else
    none

/-- `TokenManager.get_valid_token` for provider GMAIL: call
`refresh_access_token` on the Google service (any exception, including the
`AttributeError` for a missing method, is caught and turned into `None`),
then on success read the stored access token back. -/
def get_valid_token (s : GState) (uid : String) (now : Int)
    (net : RefreshOutcome) : Option String :=
  match call_refresh_access_token s uid now net with
  | none => none
  | some (refreshed, s1) =>
    if refreshed then
      match get_tokens_from_db s1 uid with
      | some tokens => some tokens.access_token
      | none => none
    else
      none

/-- Result dictionaries returned by `clear_tokens`: a `message` key
(success shaped) or an `error` key. -/
inductive ApiResult
  | msg (text : String)
  | err (text : String)
deriving DecidableEq, Repr

/-- Whether a `clear_tokens`-style result is success shaped. -/
def ApiResult.isSuccess : ApiResult → Bool
  | ApiResult.msg _ => true
  | ApiResult.err _ => false

/-- `ConnectionsService.disconnect_provider`: set the user's Gmail
connection to `disconnected` with a null `oauth_token_id`, reporting
whether a row matched. -/
def disconnect_provider (s : GState) (uid : String) : Bool × GState :=
  let matched := s.connections.any (fun c => c.user_id == uid)
  let s1 : GState :=
    { s with connections := s.connections.map (fun c =>
        if c.user_id == uid then
          { c with status := ConnectionStatus.disconnected, oauth_token_id := none }
        else c) }
  (matched, s1)

/-- `GoogleService._delete_tokens_from_db`: nothing to delete is a
success; otherwise delete the token row and clear the connection's
reference. -/
def delete_tokens_from_db (s : GState) (uid : String) : Bool × GState :=
  match get_tokens_from_db s uid with
  | none => (true, s)
  | some existing =>
    let s1 : GState :=
      { s with
        oauth_tokens := s.oauth_tokens.filter (fun r => r.id ≠ existing.id),
        connections := s.connections.map (fun c =>
          if c.user_id == uid then { c with oauth_token_id := none } else c) }
    (true, s1)

/-- `GoogleService.clear_tokens`: disconnect the Gmail connection, then
delete the stored tokens; both outcomes produce a `message` dictionary. -/
def clear_tokens (s : GState) (uid : String) : ApiResult × GState :=
  let s1 := (disconnect_provider s uid).2
  match delete_tokens_from_db s1 uid with
  | (true, s2) => (ApiResult.msg "Tokens cleared and connection disconnected", s2)
  | (false, s2) =>
    (ApiResult.msg "Connection disconnected, but no tokens found or failed to clear", s2)

/-- `EmailDetails` from `backend/models.py`, as produced by
`_extract_email_details` (or synthesized for a sent reply).  The raw
`Date` header string is modelled by its parse result: `some t` for a
header that `parsedate_to_datetime` turns into the UTC instant `t`,
`none` for a missing or unparseable header. -/
structure EmailDetails where
  id : String
  thread_id : Option String
  subject : String
  from_email : String
  to_email : String
  date : Option Nat
  snippet : String
  body_text : String
  body_html : String
  labels : List String
  has_attachments : Bool
  size_estimate : Nat
  cc_email : Option String
  bcc_email : Option String
deriving DecidableEq, Repr

/-- The dictionary returned by
`EmailCategorizationService.categorize_email_with_metadata`
(`category` may be `None` on an unrecognized model answer). -/
structure CatResult where
  category : Option String
  category_confidence : Nat
  categorized_at : Nat
  category_prompt_version : String
deriving DecidableEq, Repr

/-- Outcome of the categorization step inside `_save_email_to_db`: either
the service returned a result dictionary, or it raised. -/
inductive CatOutcome
  | result (r : CatResult)
  | raised
deriving DecidableEq, Repr

/-- Python truthiness normalization of an optional string used for the
`if email_data.cc_email:` style guards: `""` behaves like absent. -/
def pyOptStr (o : Option String) : Option String :=
  match o with
  | some s => if s = "" then none else some s
  | none => none

/-- The upsert payload built by `_save_email_to_db` after the
`None`-filtering step: `Option` fields with value `none` model columns
absent from the payload. -/
structure EmailUpsertData where
  user_id : String
  gmail_id : String
  thread_id : Option String
  subject : String
  from_email : String
  to_email : String
  cc_email : Option String
  bcc_email : Option String
  date_sent : Option Nat
  snippet : String
  body_text : String
  body_html : String
  labels : List String
  has_attachments : Bool
  size_estimate : Nat
  is_read : Bool
  cat : Option CatFields
deriving DecidableEq, Repr

/-- The payload of `_save_email_to_db`: core fields always present,
`is_read` hard-coded to `False`, `cc`/`bcc` only when truthy,
categorization fields only when the service returned a truthy category. -/
def buildEmailPayload (uid : String) (d : EmailDetails) (cat : CatOutcome) :
    EmailUpsertData :=
  { user_id := uid, gmail_id := d.id, thread_id := d.thread_id,
    subject := d.subject, from_email := d.from_email, to_email := d.to_email,
    cc_email := pyOptStr d.cc_email, bcc_email := pyOptStr d.bcc_email,
    date_sent := d.date, snippet := d.snippet,
    body_text := d.body_text, body_html := d.body_html,
    labels := d.labels, has_attachments := d.has_attachments,
    size_estimate := d.size_estimate, is_read := false,
    cat :=
      match cat with
      | CatOutcome.raised => none
      | CatOutcome.result r =>
        match r.category with
        | none => none
        | some c =>
          if c = "" then none
          else some { category := c, category_confidence := r.category_confidence,
                      categorized_at := r.categorized_at,
                      category_prompt_version := r.category_prompt_version } }

/-- Does the email row match the upsert conflict key `(user_id, gmail_id)`? -/
def emailKeyMatches (uid gid : String) (r : EmailRow) : Bool :=
  r.user_id == uid && r.gmail_id == gid

/-- Merge semantics of `upsert(..., on_conflict="user_id,gmail_id")` for an
existing row: columns present in the payload are overwritten, columns
absent from it (filtered out as `None`) keep their stored value. -/
def applyEmailUpdate (p : EmailUpsertData) (r : EmailRow) : EmailRow :=
  { r with
    thread_id := match p.thread_id with | some t => some t | none => r.thread_id,
    subject := some p.subject,
    from_email := some p.from_email,
    to_email := some p.to_email,
    cc_email := match p.cc_email with | some c => some c | none => r.cc_email,
    bcc_email := match p.bcc_email with | some c => some c | none => r.bcc_email,
    date_sent := match p.date_sent with | some t => some t | none => r.date_sent,
    snippet := some p.snippet,
    body_text := some p.body_text,
    body_html := some p.body_html,
    labels := p.labels,
    has_attachments := p.has_attachments,
    size_estimate := p.size_estimate,
    is_read := p.is_read,
    category := match p.cat with | some c => some c.category | none => r.category,
    category_confidence :=
      match p.cat with | some c => some c.category_confidence | none => r.category_confidence,
    categorized_at :=
      match p.cat with | some c => some c.categorized_at | none => r.categorized_at,
    category_prompt_version :=
      match p.cat with
      | some c => some c.category_prompt_version
      | none => r.category_prompt_version }

/-- A freshly inserted email row built from the payload (absent payload
columns become null). -/
def insertEmailRow (p : EmailUpsertData) (rowId : Nat) : EmailRow :=
  { id := rowId, user_id := p.user_id, gmail_id := p.gmail_id,
    thread_id := p.thread_id, subject := some p.subject,
    from_email := some p.from_email, to_email := some p.to_email,
    cc_email := p.cc_email, bcc_email := p.bcc_email,
    date_sent := p.date_sent, snippet := some p.snippet,
    body_text := some p.body_text, body_html := some p.body_html,
    labels := p.labels, has_attachments := p.has_attachments,
    size_estimate := p.size_estimate, is_read := p.is_read,
    category := (p.cat).map CatFields.category,
    category_confidence := (p.cat).map CatFields.category_confidence,
    categorized_at := (p.cat).map CatFields.categorized_at,
    category_prompt_version := (p.cat).map CatFields.category_prompt_version }

/-- The store's `upsert` on the `emails` table with conflict key
`(user_id, gmail_id)`. -/
def upsertEmail (s : GState) (p : EmailUpsertData) : GState :=
  if s.emails.any (emailKeyMatches p.user_id p.gmail_id) then
    { s with emails := s.emails.map (fun r =>
        if emailKeyMatches p.user_id p.gmail_id r then applyEmailUpdate p r else r) }
  else
    { s with emails := s.emails ++ [insertEmailRow p s.nextEmailId],
             nextEmailId := s.nextEmailId + 1 }

/-- `GoogleService._save_email_to_db`: build the payload (a categorization
failure only drops the categorization columns) and upsert it.  The store
itself is assumed available, so the upsert reports data back. -/
def save_email_to_db (s : GState) (uid : String) (d : EmailDetails)
    (cat : CatOutcome) : Bool × GState :=
  (true, upsertEmail s (buildEmailPayload uid d cat))

/-- `GoogleService.mark_email_as_read`: set `is_read` on the rows of this
user with the given database row id, reporting whether any matched. -/
def mark_email_as_read (s : GState) (uid : String) (emailId : Nat) : Bool × GState :=
  let matched := s.emails.any (fun r => r.user_id == uid && r.id == emailId)
  let s1 : GState :=
    { s with emails := s.emails.map (fun r =>
        if r.user_id == uid && r.id == emailId then { r with is_read := true } else r) }
  (matched, s1)

/-- `GoogleService._email_exists_in_db`. -/
def email_exists_in_db (s : GState) (uid gid : String) : Bool :=
  s.emails.any (emailKeyMatches uid gid)

/-- One message of a provider `messages().list` response together with the
external outcomes of its detail fetch (the extracted details) and of its
categorization during persistence. -/
structure ProviderMessage where
  msg_id : String
  details : EmailDetails
  cat : CatOutcome
deriving DecidableEq, Repr

/-- One `fetch_gmail_emails` call: the service's user, the `only_new`
flag, the clock and refresh outcome feeding the auth gate, and the
provider's message list. -/
structure FetchCall where
  uid : String
  only_new : Bool
  now : Int
  net : RefreshOutcome
  msgs : List ProviderMessage
deriving DecidableEq, Repr

/-- The per-message body of the `fetch_gmail_emails` loop: with `only_new`
a message already stored is skipped without a detail fetch, otherwise the
details are extracted and saved. -/
def fetchStep (s : GState) (uid : String) (only_new : Bool)
    (m : ProviderMessage) : GState :=
  if only_new && email_exists_in_db s uid m.msg_id then s
  else (save_email_to_db s uid m.details m.cat).2

/-- `GoogleService.fetch_gmail_emails`: authenticate (possibly refreshing
the stored token), then process the provider's messages in list order.
An auth failure returns early with no email written. -/
def fetch_gmail_emails (s : GState) (c : FetchCall) : GState :=
  match get_authenticated_gmail_service s c.uid c.now c.net with
  | (false, s1) => s1
  | (true, s1) => c.msgs.foldl (fun st m => fetchStep st c.uid c.only_new m) s1

/-- The deduplication key of a stored email row. -/
def emailKey (r : EmailRow) : String × String := (r.user_id, r.gmail_id)

/-- Run a sequence of fetch calls from a state, also accumulating the
`(user_id, gmail_id)` pairs of the messages listed by the calls whose
authentication succeeded (the messages actually seen by the loop). -/
def runFetchesWithSeen : GState → List FetchCall → GState × List (String × String)
  | s, [] => (s, [])
  | s, c :: rest =>
    let ok := (get_authenticated_gmail_service s c.uid c.now c.net).1
    let next := runFetchesWithSeen (fetch_gmail_emails s c) rest
    (next.1,
     (if ok then c.msgs.map (fun m => (c.uid, m.msg_id)) else []) ++ next.2)

/-- Strip leading and trailing double quotes (`.strip('"')`). -/
def stripQuotes (s : String) : String :=
  String.mk (((s.toList.dropWhile (fun c => c == '"')).reverse.dropWhile
    (fun c => c == '"')).reverse)

/-- Sender-name extraction of `_format_inbox_email`: from
`Name <addr@host>` take the quoted/stripped name part, falling back to the
address between the angle brackets when the name part is empty; a bare
address is returned unchanged. -/
def extractSenderName (fromEmail : String) : String :=
  if fromEmail.contains '<' && fromEmail.contains '>' then
    let namePart := stripQuotes (((fromEmail.splitOn "<").headD "").trim)
    if namePart = "" then
      ((((fromEmail.splitOn "<").getD 1 "").splitOn ">").headD "")
    else namePart
  else fromEmail

/-- The dictionary produced by `_format_inbox_email` (the display-only
`date` string is omitted; `thread_id` is carried because both thread
views attach it). -/
structure FormattedEmail where
  id : Nat
  gmail_id : String
  thread_id : Option String
  subject : String
  sender : String
  from_email : String
  date_sent : Option Nat
  snippet : String
  labels : List String
  has_attachments : Bool
  size_estimate : Nat
  is_unread : Bool
  is_important : Bool
  is_starred : Bool
  category : Option String
deriving DecidableEq, Repr

/-- `GoogleService._format_inbox_email`.  A null `from_email` column is
treated as the empty string. -/
def format_inbox_email (r : EmailRow) : FormattedEmail :=
  { id := r.id, gmail_id := r.gmail_id, thread_id := r.thread_id,
    subject := pyOrStr r.subject "(No Subject)",
    sender := extractSenderName (r.from_email.getD ""),
    from_email := r.from_email.getD "",
    date_sent := r.date_sent,
    snippet :=
      match r.snippet with
      | some sn => if sn = "" then "" else sn.take 150 ++ "..."
      | none => "",
    labels := r.labels,
    has_attachments := r.has_attachments,
    size_estimate := r.size_estimate,
    is_unread := ! r.is_read,
    is_important := r.labels.contains "IMPORTANT",
    is_starred := r.labels.contains "STARRED",
    category := r.category }

/-- The dictionary produced by `_format_full_email`: the inbox formatting
plus body content and addressing fields. -/
structure FullEmail where
  base : FormattedEmail
  body_text : String
  body_html : String
  to_email : Option String
  cc_email : Option String
  bcc_email : Option String
  thread_id : Option String
  full_snippet : String
deriving DecidableEq, Repr

/-- `GoogleService._format_full_email`. -/
def format_full_email (r : EmailRow) : FullEmail :=
  { base := format_inbox_email r,
    body_text := r.body_text.getD "",
    body_html := r.body_html.getD "",
    to_email := r.to_email,
    cc_email := r.cc_email,
    bcc_email := r.bcc_email,
    thread_id := r.thread_id,
    full_snippet := r.snippet.getD "" }

/-- The grouping key of `get_inbox_threads`: a falsy `thread_id` (null or
empty) falls back to the always-present `gmail_id`. -/
def effThreadKey (r : EmailRow) : String :=
  match r.thread_id with
  | some t => if t = "" then r.gmail_id else t
  | none => r.gmail_id

/-- Sort key on stored send instants: the code compares ISO strings with
`or '1970-01-01T00:00:00Z'` as fallback, which is `Option.getD 0` here. -/
def rowDateKey (r : EmailRow) : Nat := r.date_sent.getD 0

/-- The same fallback sort key on a formatted email. -/
def fmtDateKey (e : FormattedEmail) : Nat := e.date_sent.getD 0

/-- Python's stable `list.sort(key=…)`, ascending. -/
def sortAscBy (key : α → Nat) (l : List α) : List α :=
  l.insertionSort (fun a b => key a ≤ key b)

/-- Python's stable `list.sort(key=…, reverse=True)`, descending. -/
def sortDescBy (key : α → Nat) (l : List α) : List α :=
  l.insertionSort (fun a b => key b ≤ key a)

/-- Python's `max(l, key=…)` over a nonempty list: the first element
carrying the maximal key (a later element replaces only when strictly
greater). -/
def pyMaxBy (key : α → Nat) : List α → Option α
  | [] => none
  | x :: xs => some (xs.foldl (fun m y => if key m < key y then y else m) x)

/-- Insert an email into the ordered thread map of `get_inbox_threads`
(a Python dict keyed by thread id, preserving first-seen key order and
appending within a key). -/
def addToGroups (k : String) (e : FormattedEmail) :
    List (String × List FormattedEmail) → List (String × List FormattedEmail)
  | [] => [(k, [e])]
  | (g, es) :: rest =>
    if g = k then (g, es ++ [e]) :: rest
    else (g, es) :: addToGroups k e rest

/-- The formatted email that `get_inbox_threads` stores in the thread map
for a row: the inbox formatting with the effective thread id attached. -/
def fmtWithThread (r : EmailRow) : FormattedEmail :=
  { format_inbox_email r with thread_id := some (effThreadKey r) }

/-- Build the thread map from the user's rows in query order, attaching
the effective thread id to each formatted email as the code does. -/
def groupEmails (rows : List EmailRow) : List (String × List FormattedEmail) :=
  rows.foldl (fun m r => addToGroups (effThreadKey r) (fmtWithThread r) m) []

/-- A thread object of the `get_inbox_threads` list view. -/
structure ThreadListItem where
  thread_id : String
  subject : String
  latest_sender : String
  latest_from_email : String
  latest_date_sent : Option Nat
  latest_snippet : String
  email_count : Nat
  unread_count : Nat
  has_attachments : Bool
  is_unread : Bool
  labels : List String
  emails : List FormattedEmail
deriving DecidableEq, Repr

/-- Placeholder formatted email; only used for the empty-group case that
the grouping never produces. -/
def defaultFormatted : FormattedEmail :=
  { id := 0, gmail_id := "", thread_id := none, subject := "", sender := "",
    from_email := "", date_sent := none, snippet := "", labels := [],
    has_attachments := false, size_estimate := 0, is_unread := false,
    is_important := false, is_starred := false,
    category := none }

/-- Build one thread object: members sorted ascending by send instant,
metadata taken from the latest member, unread and attachment aggregates
over the members. -/
def mkThreadListItem (tid : String) (es : List FormattedEmail) : ThreadListItem :=
  let sorted := sortAscBy fmtDateKey es
  let latest := (pyMaxBy fmtDateKey sorted).getD defaultFormatted
  { thread_id := tid,
    subject := latest.subject,
    latest_sender := latest.sender,
    latest_from_email := latest.from_email,
    latest_date_sent := latest.date_sent,
    latest_snippet := latest.snippet,
    email_count := sorted.length,
    unread_count := (sorted.filter (fun e => e.is_unread)).length,
    has_attachments := sorted.any (fun e => e.has_attachments),
    is_unread := 0 < (sorted.filter (fun e => e.is_unread)).length,
    labels := latest.labels,
    emails := sorted }

/-- The sort key on thread objects (`x.get('latest_date_sent') or '1970…'`). -/
def threadDateKey (th : ThreadListItem) : Nat := th.latest_date_sent.getD 0

/-- The full thread list of `get_inbox_threads` before pagination: user
rows in query order (send instant descending), grouped, each group turned
into a thread object, threads sorted by their latest member descending. -/
def inbox_threads_all (s : GState) (uid : String) : List ThreadListItem :=
  let rows := sortDescBy rowDateKey (s.emails.filter (fun r => r.user_id == uid))
  sortDescBy threadDateKey
    ((groupEmails rows).map (fun g => mkThreadListItem g.1 g.2))

/-- `GoogleService.get_inbox_threads`: empty result set short-circuits;
otherwise pagination (`threads[offset : offset + limit]`) applies to the
thread list, not the underlying rows. -/
def get_inbox_threads (s : GState) (uid : String) (limit offset : Nat) :
    List ThreadListItem :=
  if (s.emails.filter (fun r => r.user_id == uid)).isEmpty then []
  else ((inbox_threads_all s uid).drop offset).take limit

/-- The row set of the `get_thread_by_id` query: the user's emails whose
`thread_id` equals the requested id. -/
def threadMembers (s : GState) (uid tid : String) : List EmailRow :=
  s.emails.filter (fun r => r.user_id == uid && r.thread_id == some tid)

/-- A thread object of the single-thread view (`get_thread_by_id`), whose
members carry full body content. -/
structure ThreadDetail where
  thread_id : String
  subject : String
  latest_sender : String
  latest_from_email : String
  latest_date_sent : Option Nat
  email_count : Nat
  unread_count : Nat
  has_attachments : Bool
  is_unread : Bool
  labels : List String
  emails : List FullEmail
deriving DecidableEq, Repr

/-- Sort key on full-content formatted emails. -/
def fullDateKey (e : FullEmail) : Nat := e.base.date_sent.getD 0

/-- Placeholder full email for the empty-list case that a nonempty query
result never produces. -/
def defaultFull : FullEmail :=
  { base := defaultFormatted, body_text := "", body_html := "",
    to_email := none, cc_email := none, bcc_email := none,
    thread_id := none, full_snippet := "" }

/-- `GoogleService.get_thread_by_id`: the user's rows with this exact
`thread_id`, in send-instant ascending query order, formatted with full
bodies; `None` when the thread has no rows. -/
def get_thread_by_id (s : GState) (uid : String) (tid : String) :
    Option ThreadDetail :=
  let rows := sortAscBy rowDateKey (threadMembers s uid tid)
  if rows.isEmpty then none
  else
    let formatted := rows.map format_full_email
    let latest := (pyMaxBy fullDateKey formatted).getD defaultFull
    some
      { thread_id := tid,
        subject := latest.base.subject,
        latest_sender := latest.base.sender,
        latest_from_email := latest.base.from_email,
        latest_date_sent := latest.base.date_sent,
        email_count := formatted.length,
        unread_count := (formatted.filter (fun e => e.base.is_unread)).length,
        has_attachments := formatted.any (fun e => e.base.has_attachments),
        is_unread := 0 < (formatted.filter (fun e => e.base.is_unread)).length,
        labels := latest.base.labels,
        emails := formatted }

/-- `GoogleService.get_single_email_from_db`: the user's row with this
`gmail_id`, formatted with full body content (`.single()` raising on zero
rows is caught and surfaced as `None`). -/
def get_single_email_from_db (s : GState) (uid gid : String) : Option FullEmail :=
  match s.emails.find? (emailKeyMatches uid gid) with
  | some r => some (format_full_email r)
  | none => none

/-- Search for the first `<addr>` group the regex `<(.+?)>` would find:
scanning left to right, the first `<` that is followed by at least one
character and then a `>` after that character yields the (shortest such)
bracketed content. -/
def grabAngleContent (cs : List Char) : Option String :=
  match cs with
  | [] => none
  | c0 :: rest =>
    match rest.findIdx? (fun c => c == '>') with
    | none => none
    | some j => some (String.mk (c0 :: rest.take j))

/-- Scan for the leftmost match of `<(.+?)>`. -/
def angleSearch : List Char → Option String
  | [] => none
  | c :: rest =>
    if c == '<' then
      match grabAngleContent rest with
      | some s => some s
      | none => angleSearch rest
    else angleSearch rest

/-- Default reply recipient of `send_email_reply`:
`re.search(r'<(.+?)>', original_from)` and its group, falling back to the
whole `from` value. -/
def extractReplyAddr (fromEmail : String) : String :=
  match angleSearch fromEmail.toList with
  | some addr => addr
  | none => fromEmail

/-- `', '.join(xs) if xs else None` for the optional `cc`/`bcc` lists. -/
def joinIfTruthy : Option (List String) → Option String
  | some (x :: xs) => some (String.intercalate ", " (x :: xs))
  | _ => none

/-- The request body of `send_email_reply`. -/
structure ReplyRequest where
  original_email_id : String
  reply_body : String
  reply_subject : Option String
  to_addrs : Option (List String)
  cc : Option (List String)
  bcc : Option (List String)
deriving DecidableEq, Repr

/-- The external-world outcomes a `send_email_reply` call can encounter:
the clock, the refresh-exchange outcome inside the auth gate, the
`getProfile` outcome (`none` = raised), the `messages().send` outcome
(`none` = raised, `some id` = the provider's id for the sent message) and
the categorization outcome while persisting the sent copy. -/
structure ReplyEnv where
  now : Int
  net : RefreshOutcome
  profile : Option String
  send : Option String
  cat : CatOutcome
deriving DecidableEq, Repr

/-- The dictionary returned by `send_email_reply`: `{"error": …}` on any
failure, `{}` on success. -/
inductive ReplyResult
  | errorResult (msg : String)
  | success
deriving DecidableEq, Repr

/-- `GoogleService.send_email_reply`: authenticate, load the original from
local storage only, derive recipients and subject, send, and on success
synthesize the sent message's row from known fields.  Every failure path
returns an error dictionary before any email row is written. -/
def send_email_reply (s : GState) (uid : String) (req : ReplyRequest)
    (env : ReplyEnv) : ReplyResult × GState :=
  match get_authenticated_gmail_service s uid env.now env.net with
  | (false, s1) => (ReplyResult.errorResult "Authentication failed", s1)
  | (true, s1) =>
    match get_single_email_from_db s1 uid req.original_email_id with
    | none =>
      (ReplyResult.errorResult "Original email not found in database", s1)
    | some orig =>
      let original_subject := orig.base.subject
      let original_from := orig.base.from_email
      let thread_id := orig.thread_id
      let reply_to_emails :=
        match req.to_addrs with
        | some (x :: xs) => x :: xs
        | _ => [extractReplyAddr original_from]
      match env.profile with
      | none => (ReplyResult.errorResult "Failed to send reply", s1)
      | some user_email =>
        let computed_subject :=
          if original_subject.startsWith "Re:" then original_subject
          else "Re: " ++ original_subject
        let reply_subject :=
          match req.reply_subject with
          | some rs => if rs = "" then computed_subject else rs
          | none => computed_subject
        match env.send with
        | none => (ReplyResult.errorResult "Failed to send reply", s1)
        | some sentId =>
          let sent_details : EmailDetails :=
            { id := sentId, thread_id := thread_id, subject := reply_subject,
              from_email := user_email,
              to_email := String.intercalate ", " reply_to_emails,
              date := some env.now.toNat,
              snippet :=
                if 150 < req.reply_body.length then
                  req.reply_body.take 150 ++ "..."
                else req.reply_body,
              body_text := req.reply_body, body_html := "",
              labels := ["SENT"], has_attachments := false,
              size_estimate := req.reply_body.length,
              cc_email := joinIfTruthy req.cc,
              bcc_email := joinIfTruthy req.bcc }
          (ReplyResult.success, (save_email_to_db s1 uid sent_details env.cat).2)

/-- Did the categorization step fail (raise, or return no truthy
category)? -/
def categorizationFailed : CatOutcome → Bool
  | CatOutcome.raised => true
  | CatOutcome.result r => ! pyTruthy r.category

/-- The member list stored under key `k` in the thread map. -/
def lookupGroup (m : List (String × List FormattedEmail)) (k : String) :
    List FormattedEmail :=
  match m.find? (fun g => g.1 == k) with
  | some g => g.2
  | none => []

/-- Maximum of a list of naturals (0 for the empty list). -/
def maxNat (l : List Nat) : Nat := l.foldr Nat.max 0

/-- A credential row that is far from expiry and has a refresh token. -/
def tokRowFresh : OAuthTokenRow :=
  { id := 1, provider := "google", access_token := "access-1",
    refresh_token := some "refresh-1", expires_at := PyDateTime.utc 10000,
    scope := some "mail-scope" }

/-- A store holding `tokRowFresh` behind a connected Gmail connection. -/
def gsFresh : GState :=
  { connections := [{ user_id := "u1", status := ConnectionStatus.connected,
                      oauth_token_id := some 1 }],
    oauth_tokens := [tokRowFresh], emails := [],
    nextTokenId := 2, nextEmailId := 0 }

/-- A credential row that expired one second ago and has no refresh
token. -/
def tokRowExpiredNoRefresh : OAuthTokenRow :=
  { id := 1, provider := "google", access_token := "access-1",
    refresh_token := none, expires_at := PyDateTime.utc 100,
    scope := none }

/-- A store holding `tokRowExpiredNoRefresh` behind a connected Gmail
connection. -/
def gsExpired : GState :=
  { connections := [{ user_id := "u1", status := ConnectionStatus.connected,
                      oauth_token_id := some 1 }],
    oauth_tokens := [tokRowExpiredNoRefresh], emails := [],
    nextTokenId := 2, nextEmailId := 0 }

/-- A credential row near expiry that still has a refresh token. -/
def tokRowExpiring : OAuthTokenRow :=
  { id := 1, provider := "google", access_token := "access-old",
    refresh_token := some "refresh-1", expires_at := PyDateTime.utc 200,
    scope := some "mail-scope" }

/-- A store holding `tokRowExpiring` behind a connected Gmail
connection. -/
def gsExpiring : GState :=
  { connections := [{ user_id := "u1", status := ConnectionStatus.connected,
                      oauth_token_id := some 1 }],
    oauth_tokens := [tokRowExpiring], emails := [],
    nextTokenId := 2, nextEmailId := 0 }

/-- Sample extracted email details used by concrete instantiations. -/
def sampleDetails (gid : String) (tid : String) (t : Nat) : EmailDetails :=
  { id := gid, thread_id := some tid, subject := "Quarterly report",
    from_email := "Ana Doe <ana@example.com>", to_email := "me@example.com",
    date := some t, snippet := "numbers attached", body_text := "body",
    body_html := "", labels := ["INBOX"], has_attachments := false,
    size_estimate := 4, cc_email := none, bcc_email := none }

/-- A stored copy of message `m1` for user `u1`, previously categorized. -/
def storedEmailRow : EmailRow :=
  { id := 7, user_id := "u1", gmail_id := "m1", thread_id := some "T1",
    subject := some "old subject", from_email := some "ana@example.com",
    to_email := some "me@example.com", cc_email := none, bcc_email := none,
    date_sent := some 40, snippet := some "old", body_text := some "old body",
    body_html := some "", labels := ["INBOX"], has_attachments := false,
    size_estimate := 3, is_read := false, category := some "OTHER",
    category_confidence := some 80, categorized_at := some 41,
    category_prompt_version := some "1.0" }

/-- `gsFresh` with one stored email row. -/
def gsOneEmail : GState := { gsFresh with emails := [storedEmailRow] }

/-- Two overlapping fetch calls used to instantiate the dedup invariant:
the second call lists `m1` and `m2` again plus a new `m3`. -/
def fetchCallA : FetchCall :=
  { uid := "u1", only_new := false, now := 0, net := RefreshOutcome.err,
    msgs := [{ msg_id := "m1", details := sampleDetails "m1" "T1" 50,
               cat := CatOutcome.raised },
             { msg_id := "m2", details := sampleDetails "m2" "T1" 60,
               cat := CatOutcome.raised }] }

/-- Second, overlapping fetch call (same provider set plus `m3`). -/
def fetchCallB : FetchCall :=
  { uid := "u1", only_new := true, now := 0, net := RefreshOutcome.err,
    msgs := [{ msg_id := "m2", details := sampleDetails "m2" "T1" 60,
               cat := CatOutcome.raised },
             { msg_id := "m1", details := sampleDetails "m1" "T1" 50,
               cat := CatOutcome.raised },
             { msg_id := "m3", details := sampleDetails "m3" "T2" 70,
               cat := CatOutcome.raised }] }

/-- A stored email row of user `u1` inside a thread, used to instantiate
the thread-assembly properties. -/
def threadRow (rid : Nat) (gid tid : String) (t : Nat) : EmailRow :=
  { id := rid, user_id := "u1", gmail_id := gid, thread_id := some tid,
    subject := some "subject", from_email := some "Ana Doe <ana@example.com>",
    to_email := some "me@example.com", cc_email := none, bcc_email := none,
    date_sent := some t, snippet := some "snippet", body_text := some "body",
    body_html := some "", labels := [], has_attachments := false,
    size_estimate := 1, is_read := false, category := none,
    category_confidence := none, categorized_at := none,
    category_prompt_version := none }

/-- A store with three emails in thread `T1` (send instants 10 < 20 < 30)
and one in thread `T2`. -/
def gsThreads : GState :=
  { connections := [], oauth_tokens := [],
    emails := [threadRow 1 "g1" "T1" 20, threadRow 2 "g2" "T1" 10,
               threadRow 3 "g3" "T2" 40, threadRow 4 "g4" "T1" 30],
    nextTokenId := 0, nextEmailId := 5 }

/-! ### Generic list lemmas used by the store model -/

theorem find?_map_pred_stable {α : Type} (l : List α) (p : α → Bool) (f : α → α)
    (hf : ∀ a, p (f a) = p a) :
    (l.map f).find? p = (l.find? p).map f := by
  rw [List.find?_map]
  have hpf : p ∘ f = p := funext hf
  rw [hpf]

theorem find?_token_update (l : List OAuthTokenRow) (t : OAuthTokenRow)
    (upd : OAuthTokenRow → OAuthTokenRow)
    (hid : ∀ r, (upd r).id = r.id) (hprov : ∀ r, (upd r).provider = "google")
    (hnodup : (l.map OAuthTokenRow.id).Nodup)
    (hfind : l.find? (fun r => r.id == t.id && r.provider == "google") = some t) :
    (l.map (fun r => if r.id = t.id then upd r else r)).find?
      (fun r => r.id == t.id && r.provider == "google") = some (upd t) := by
  induction l with
  | nil => simp at hfind
  | cons a l ih =>
    rw [List.map_cons]
    by_cases ha : (a.id == t.id && a.provider == "google") = true
    · rw [List.find?_cons, ha] at hfind
      have hat : a = t := by simpa using hfind
      subst hat
      have hupd : ((upd a).id == a.id && (upd a).provider == "google") = true := by
        simp [hid, hprov]
      rw [if_pos rfl, List.find?_cons, hupd]
    · have ha' : (a.id == t.id && a.provider == "google") = false :=
        Bool.not_eq_true _ ▸ Bool.of_not_eq_true ha
      rw [List.find?_cons, ha'] at hfind
      have hmem : t ∈ l := List.mem_of_find?_eq_some hfind
      have hane : ¬ a.id = t.id := by
        intro h
        have hni : a.id ∉ l.map OAuthTokenRow.id := (List.nodup_cons.mp hnodup).1
        exact hni (h ▸ List.mem_map_of_mem OAuthTokenRow.id hmem)
      rw [if_neg hane, List.find?_cons, ha']
      exact ih (List.nodup_cons.mp hnodup).2 hfind

/-! ### Frame and access lemmas for the token store -/

theorem save_tokens_fst (s : GState) (uid a rr : String) (e : PyDateTime)
    (sc : String) : (save_tokens_to_db s uid a rr e sc).1 = true := by
  unfold save_tokens_to_db
  cases get_tokens_from_db s uid <;> rfl

theorem save_tokens_emails_frame (s : GState) (uid a rr : String)
    (e : PyDateTime) (sc : String) :
    ((save_tokens_to_db s uid a rr e sc).2).emails = s.emails := by
  unfold save_tokens_to_db
  cases get_tokens_from_db s uid <;> rfl

theorem refresh_emails_frame (s : GState) (uid : String) (now : Int)
    (net : RefreshOutcome) :
    ((refresh_token_if_needed s uid now net).2).emails = s.emails := by
  unfold refresh_token_if_needed
  cases hts : get_tokens_from_db s uid with
  | none => rfl
  | some t =>
    dsimp only
    split
    · rfl
    · split
      · rfl
      · cases net with
        | ok a => exact save_tokens_emails_frame s uid a _ _ _
        | err => rfl

theorem auth_emails_frame (s : GState) (uid : String) (now : Int)
    (net : RefreshOutcome) :
    ((get_authenticated_gmail_service s uid now net).2).emails = s.emails := by
  unfold get_authenticated_gmail_service
  cases hts : get_tokens_from_db s uid with
  | none => rfl
  | some t =>
    dsimp only
    cases hr : refresh_token_if_needed s uid now net with
    | mk ok s1 =>
      have h1 : s1.emails = s.emails := by
        have := refresh_emails_frame s uid now net
        rw [hr] at this
        exact this
      cases ok
      · exact h1
      · dsimp only
        cases get_tokens_from_db s1 uid <;> exact h1

theorem get_tokens_provider (s : GState) (uid : String) (t : OAuthTokenRow)
    (ht : get_tokens_from_db s uid = some t) : t.provider = "google" := by
  unfold get_tokens_from_db at ht
  cases hc : findConnection s uid with
  | none => rw [hc] at ht; exact absurd ht (by simp)
  | some c =>
    rw [hc] at ht
    dsimp only at ht
    cases hcid : c.oauth_token_id with
    | none => rw [hcid] at ht; exact absurd ht (by simp)
    | some tokId =>
      rw [hcid] at ht
      dsimp only at ht
      have := List.find?_some ht
      simp only [Bool.and_eq_true, beq_iff_eq] at this
      exact this.2

theorem get_tokens_from_db_after_save
    (s : GState) (uid a rr : String) (e : PyDateTime) (sc : String)
    (t : OAuthTokenRow) (ht : get_tokens_from_db s uid = some t)
    (hnodup : (s.oauth_tokens.map OAuthTokenRow.id).Nodup) :
    get_tokens_from_db ((save_tokens_to_db s uid a rr e sc).2) uid =
      some { t with provider := "google", access_token := a,
                    refresh_token := some rr, expires_at := ensure_utc e,
                    scope := some sc } := by
  have ht0 := ht
  unfold get_tokens_from_db at ht
  cases hc : findConnection s uid with
  | none => rw [hc] at ht; exact absurd ht (by simp)
  | some c =>
    rw [hc] at ht
    dsimp only at ht
    cases hcid : c.oauth_token_id with
    | none => rw [hcid] at ht; exact absurd ht (by simp)
    | some tokId =>
      rw [hcid] at ht
      dsimp only at ht
      unfold findTokenRow at ht
      have htid : t.id = tokId := by
        have := List.find?_some ht
        simp only [Bool.and_eq_true, beq_iff_eq] at this
        exact this.1
      subst htid
      have hcuid : c.user_id = uid := by
        unfold findConnection at hc
        have := List.find?_some hc
        simpa using this
      unfold save_tokens_to_db
      rw [ht0]
      dsimp only
      unfold get_tokens_from_db findConnection
      dsimp only
      rw [find?_map_pred_stable _ _ _
        (by intro x; by_cases hx : x.user_id = uid <;> simp [hx])]
      unfold findConnection at hc
      rw [hc]
      simp only [Option.map_some']
      rw [if_pos hcuid]
      dsimp only
      unfold findTokenRow
      dsimp only
      exact find?_token_update s.oauth_tokens t _ (fun r => rfl) (fun r => rfl)
        hnodup ht

/-! ### Claim theorems about the token lifecycle -/

/-- C2: for every stored Gmail credential whose UTC-normalized
`expires_at` is more than 5 minutes after the current UTC time, the
refresh gate returns true, performs no network refresh call (the result
does not depend on the refresh outcome) and performs no write (the state
is returned unchanged). -/
theorem refresh_gate_fresh_no_side_effect
    (s : GState) (uid : String) (now : Int) (t : OAuthTokenRow)
    (ht : get_tokens_from_db s uid = some t)
    (hfresh : (ensure_utc t.expires_at).wall - now > refreshMarginSeconds) :
    ∀ net : RefreshOutcome, refresh_token_if_needed s uid now net = (true, s) := by
  intro net
  unfold refresh_token_if_needed
  rw [ht]
  dsimp only
  rw [if_pos (by omega)]

/-- Witness for C2: the fresh credential of `gsFresh` at time 0. -/
theorem refresh_gate_fresh_no_side_effect_witness :
    refresh_token_if_needed gsFresh "u1" 0 RefreshOutcome.err = (true, gsFresh) :=
  refresh_gate_fresh_no_side_effect gsFresh "u1" 0 tokRowFresh (by decide)
    (by decide) RefreshOutcome.err

/-- C3 counterexample: a credential one second past expiry with no
refresh token makes the gate return false, but the user's connection is
returned unchanged with status `connected` — no `refresh_required`
transition happens anywhere in the Gmail code path. -/
theorem refresh_gate_no_refresh_required_counterexample :
    refresh_token_if_needed gsExpired "u1" 101 RefreshOutcome.err =
      (false, gsExpired) ∧
    ((refresh_token_if_needed gsExpired "u1" 101 RefreshOutcome.err).2).connections =
      [{ user_id := "u1", status := ConnectionStatus.connected,
         oauth_token_id := some 1 }] := by
  exact ⟨by decide, by decide⟩

/-- C3 (amended): for every stored Gmail credential whose `expires_at` is
not more than 5 minutes in the future and which has no truthy refresh
token, the refresh gate returns false and leaves the store — in
particular every connection status — unchanged; the Gmail path never
writes `refresh_required`. -/
theorem refresh_gate_expired_no_refresh_token
    (s : GState) (uid : String) (now : Int) (net : RefreshOutcome)
    (t : OAuthTokenRow) (ht : get_tokens_from_db s uid = some t)
    (hexp : ¬ now < (ensure_utc t.expires_at).wall - refreshMarginSeconds)
    (hrt : pyTruthy t.refresh_token = false) :
    refresh_token_if_needed s uid now net = (false, s) := by
  unfold refresh_token_if_needed
  rw [ht]
  dsimp only
  rw [if_neg hexp, if_pos (by simp [hrt])]

/-- Witness for the amended C3 at the concrete expired credential. -/
theorem refresh_gate_expired_no_refresh_token_witness :
    refresh_token_if_needed gsExpired "u1" 101 (RefreshOutcome.ok "fresh-access") =
      (false, gsExpired) :=
  refresh_gate_expired_no_refresh_token gsExpired "u1" 101
    (RefreshOutcome.ok "fresh-access") tokRowExpiredNoRefresh (by decide)
    (by decide) (by decide)

/-- C7: after every successful refresh performed by the refresh gate, the
stored credential is the old one with only the access token, the expiry
and the scope fallback rewritten — in particular the stored
`refresh_token` (and row id and provider) equal their pre-refresh
values — and no email row is touched. -/
theorem refresh_preserves_refresh_token
    (s : GState) (uid : String) (now : Int) (a : String) (t : OAuthTokenRow)
    (ht : get_tokens_from_db s uid = some t)
    (hexp : ¬ now < (ensure_utc t.expires_at).wall - refreshMarginSeconds)
    (hrt : pyTruthy t.refresh_token = true)
    (hnodup : (s.oauth_tokens.map OAuthTokenRow.id).Nodup) :
    (refresh_token_if_needed s uid now (RefreshOutcome.ok a)).1 = true ∧
    get_tokens_from_db ((refresh_token_if_needed s uid now (RefreshOutcome.ok a)).2) uid =
      some { t with access_token := a,
                    expires_at := PyDateTime.utc (now + tokenLifetimeSeconds),
                    scope := some (pyOrStr t.scope defaultScope) } ∧
    ((refresh_token_if_needed s uid now (RefreshOutcome.ok a)).2).emails = s.emails := by
  obtain ⟨rt, hrt_eq, hrt_ne⟩ :
      ∃ rt, t.refresh_token = some rt ∧ rt ≠ "" := by
    cases h : t.refresh_token with
    | none => rw [h] at hrt; simp [pyTruthy] at hrt
    | some rt =>
      refine ⟨rt, rfl, ?_⟩
      rw [h] at hrt
      simpa [pyTruthy] using hrt
  have hred : refresh_token_if_needed s uid now (RefreshOutcome.ok a) =
      save_tokens_to_db s uid a (t.refresh_token.getD "")
        (PyDateTime.utc (now + tokenLifetimeSeconds))
        (pyOrStr t.scope defaultScope) := by
    unfold refresh_token_if_needed
    rw [ht]
    dsimp only
    rw [if_neg hexp, if_neg (by simp [hrt])]
  rw [hred]
  refine ⟨save_tokens_fst _ _ _ _ _ _, ?_, save_tokens_emails_frame _ _ _ _ _ _⟩
  rw [get_tokens_from_db_after_save s uid a (t.refresh_token.getD "")
    (PyDateTime.utc (now + tokenLifetimeSeconds)) (pyOrStr t.scope defaultScope)
    t ht hnodup]
  have hprov : t.provider = "google" := get_tokens_provider s uid t ht
  have hens : ensure_utc (PyDateTime.utc (now + tokenLifetimeSeconds)) =
      PyDateTime.utc (now + tokenLifetimeSeconds) := by
    simp [ensure_utc, PyDateTime.utc]
  rw [hens, hrt_eq, hprov]
  simp

/-- Witness for C7: the expiring credential of `gsExpiring` refreshed at
time 0 keeps its refresh token. -/
theorem refresh_preserves_refresh_token_witness :
    (refresh_token_if_needed gsExpiring "u1" 0 (RefreshOutcome.ok "access-new")).1 = true ∧
    get_tokens_from_db ((refresh_token_if_needed gsExpiring "u1" 0
        (RefreshOutcome.ok "access-new")).2) "u1" =
      some { tokRowExpiring with
             access_token := "access-new",
             expires_at := PyDateTime.utc (0 + tokenLifetimeSeconds),
             scope := some (pyOrStr tokRowExpiring.scope defaultScope) } ∧
    ((refresh_token_if_needed gsExpiring "u1" 0
        (RefreshOutcome.ok "access-new")).2).emails = gsExpiring.emails :=
  refresh_preserves_refresh_token gsExpiring "u1" 0 "access-new" tokRowExpiring
    (by decide) (by decide) (by decide) (by decide)

/-! ### Claim theorems about disconnect -/

theorem disconnect_connections_disconnected (s : GState) (uid : String) :
    ∀ c ∈ ((disconnect_provider s uid).2).connections, c.user_id = uid →
      c.status = ConnectionStatus.disconnected ∧ c.oauth_token_id = none := by
  intro c hc hcu
  unfold disconnect_provider at hc
  simp only [List.mem_map] at hc
  obtain ⟨c0, hc0, rfl⟩ := hc
  by_cases h : (c0.user_id == uid) = true
  · simp [h]
  · rw [if_neg h] at hcu ⊢
    exact absurd (by simpa using hcu) h

theorem get_tokens_after_disconnect (s : GState) (uid : String) :
    get_tokens_from_db ((disconnect_provider s uid).2) uid = none := by
  unfold get_tokens_from_db findConnection disconnect_provider
  dsimp only
  rw [find?_map_pred_stable _ _ _
    (by intro x; by_cases hx : (x.user_id == uid) = true <;> simp [hx])]
  cases h : s.connections.find? (fun c => c.user_id == uid) with
  | none => rfl
  | some c =>
    have hcu : (c.user_id == uid) = true := by
      simpa using List.find?_some h
    simp only [Option.map_some']
    rw [if_pos hcu]

theorem disconnect_state_idem (s : GState) (uid : String) :
    (disconnect_provider ((disconnect_provider s uid).2) uid).2 =
      (disconnect_provider s uid).2 := by
  unfold disconnect_provider
  dsimp only
  congr 1
  rw [List.map_map]
  apply List.map_congr_left
  intro c _
  by_cases h : c.user_id = uid
  · simp [h]
  · simp [h]

theorem clear_tokens_unfolded (s : GState) (uid : String) :
    clear_tokens s uid =
      (ApiResult.msg "Tokens cleared and connection disconnected",
       (disconnect_provider s uid).2) := by
  unfold clear_tokens delete_tokens_from_db
  dsimp only
  rw [get_tokens_after_disconnect]

/-- C8: disconnect (`clear_tokens`) is idempotent — with nothing
connected, or called twice in a row, each call returns a success-shaped
(`message`) result, the second call leaves the state exactly where the
first left it, and the user's connection (when a row exists at all) ends
with status `disconnected` and a null credential reference. -/
theorem clear_tokens_idempotent (s : GState) (uid : String) :
    ((clear_tokens s uid).1).isSuccess = true ∧
    ((clear_tokens (clear_tokens s uid).2 uid).1).isSuccess = true ∧
    (clear_tokens (clear_tokens s uid).2 uid).2 = (clear_tokens s uid).2 ∧
    ∀ c ∈ ((clear_tokens s uid).2).connections, c.user_id = uid →
      c.status = ConnectionStatus.disconnected ∧ c.oauth_token_id = none := by
  have h1 := clear_tokens_unfolded s uid
  have h2 := clear_tokens_unfolded (clear_tokens s uid).2 uid
  refine ⟨by rw [h1]; rfl, by rw [h2]; rfl, ?_, ?_⟩
  · rw [h2, h1]
    dsimp only
    exact disconnect_state_idem s uid
  · rw [h1]
    exact disconnect_connections_disconnected s uid

/-- Witness for C8 at a state with a live connection. -/
theorem clear_tokens_idempotent_witness :
    ((clear_tokens gsFresh "u1").1).isSuccess = true ∧
    ((clear_tokens (clear_tokens gsFresh "u1").2 "u1").1).isSuccess = true ∧
    (clear_tokens (clear_tokens gsFresh "u1").2 "u1").2 =
      (clear_tokens gsFresh "u1").2 ∧
    ∀ c ∈ ((clear_tokens gsFresh "u1").2).connections, c.user_id = "u1" →
      c.status = ConnectionStatus.disconnected ∧ c.oauth_token_id = none :=
  clear_tokens_idempotent gsFresh "u1"

/-! ### Claim theorem about the valid-token accessor -/

/-- C1 (code bug): `TokenManager.get_valid_token` for provider GMAIL
returns `None` for every state, clock and refresh outcome, because it
calls `refresh_access_token`, a method `GoogleService` does not define
(the resulting `AttributeError` is swallowed by the broad `except`).  In
particular it returns `None` even at `gsFresh`, where the refresh gate
itself succeeds and a stored access token exists. -/
theorem get_valid_token_gmail_always_none :
    (∀ (s : GState) (uid : String) (now : Int) (net : RefreshOutcome),
      get_valid_token s uid now net = none) ∧
    refresh_token_if_needed gsFresh "u1" 0 RefreshOutcome.err = (true, gsFresh) ∧
    get_tokens_from_db gsFresh "u1" = some tokRowFresh ∧
    tokRowFresh.access_token = "access-1" := by
  refine ⟨?_, by decide, by decide, rfl⟩
  intro s uid now net
  unfold get_valid_token call_refresh_access_token
  rw [if_neg (by decide)]

/-! ### Lemmas about the email upsert -/

theorem applyEmailUpdate_key (p : EmailUpsertData) (r : EmailRow) :
    emailKeyMatches p.user_id p.gmail_id (applyEmailUpdate p r) =
      emailKeyMatches p.user_id p.gmail_id r := rfl

theorem insertEmailRow_key (p : EmailUpsertData) (n : Nat) :
    emailKeyMatches p.user_id p.gmail_id (insertEmailRow p n) = true := by
  simp [emailKeyMatches, insertEmailRow]

theorem find?_emails_upsert (s : GState) (p : EmailUpsertData) :
    ((upsertEmail s p).emails).find? (emailKeyMatches p.user_id p.gmail_id) =
      some (match s.emails.find? (emailKeyMatches p.user_id p.gmail_id) with
            | some r0 => applyEmailUpdate p r0
            | none => insertEmailRow p s.nextEmailId) := by
  unfold upsertEmail
  by_cases h : s.emails.any (emailKeyMatches p.user_id p.gmail_id) = true
  · rw [if_pos h]
    dsimp only
    have hex : ∃ r0,
        s.emails.find? (emailKeyMatches p.user_id p.gmail_id) = some r0 := by
      cases hf : s.emails.find? (emailKeyMatches p.user_id p.gmail_id) with
      | none =>
        rw [List.any_eq_true] at h
        obtain ⟨x, hx, hpx⟩ := h
        exact absurd hpx (List.find?_eq_none.mp hf x hx)
      | some r0 => exact ⟨r0, rfl⟩
    obtain ⟨r0, hf⟩ := hex
    rw [hf]
    rw [find?_map_pred_stable _ _ _ (by
      intro a
      by_cases ha : emailKeyMatches p.user_id p.gmail_id a = true
      · rw [if_pos ha, applyEmailUpdate_key]
      · rw [if_neg ha])]
    rw [hf]
    simp only [Option.map_some']
    rw [if_pos (List.find?_some hf)]
  · rw [if_neg h]
    dsimp only
    have hnone : s.emails.find? (emailKeyMatches p.user_id p.gmail_id) = none := by
      rw [List.find?_eq_none]
      intro x hx hpx
      exact h (List.any_eq_true.mpr ⟨x, hx, hpx⟩)
    rw [hnone, List.find?_append, hnone]
    simp [insertEmailRow_key]

theorem save_email_key (uid : String) (d : EmailDetails) (cat : CatOutcome) :
    (buildEmailPayload uid d cat).user_id = uid ∧
    (buildEmailPayload uid d cat).gmail_id = d.id := ⟨rfl, rfl⟩

theorem find?_emails_after_save (s : GState) (uid : String) (d : EmailDetails)
    (cat : CatOutcome) :
    (((save_email_to_db s uid d cat).2).emails).find? (emailKeyMatches uid d.id) =
      some (match s.emails.find? (emailKeyMatches uid d.id) with
            | some r0 => applyEmailUpdate (buildEmailPayload uid d cat) r0
            | none => insertEmailRow (buildEmailPayload uid d cat) s.nextEmailId) :=
  find?_emails_upsert s (buildEmailPayload uid d cat)

/-- When the categorization step fails, the payload carries no
categorization columns. -/
theorem payload_cat_none (uid : String) (d : EmailDetails) (cat : CatOutcome)
    (hfail : categorizationFailed cat = true) :
    (buildEmailPayload uid d cat).cat = none := by
  cases cat with
  | raised => rfl
  | result r =>
    unfold categorizationFailed at hfail
    dsimp only at hfail
    unfold buildEmailPayload
    dsimp only
    cases hc : r.category with
    | none => rfl
    | some c =>
      rw [hc] at hfail
      simp only [pyTruthy, Bool.not_eq_true'] at hfail
      have hce : c = "" := by simpa using hfail
      simp [hce]

/-! ### Claim theorems about email persistence -/

/-- C9: a failure of the categorization step (an exception from the
service, or no truthy category returned) never fails the ingestion: the
email row is still upserted with the message's own fields, the save
reports success, and the categorization columns are simply not written
(an existing row keeps its stored category, a new row gets none). -/
theorem save_email_categorization_failure_isolated
    (s : GState) (uid : String) (d : EmailDetails) (cat : CatOutcome)
    (hfail : categorizationFailed cat = true) :
    (save_email_to_db s uid d cat).1 = true ∧
    ∃ r, (((save_email_to_db s uid d cat).2).emails).find?
        (emailKeyMatches uid d.id) = some r ∧
      r.user_id = uid ∧ r.gmail_id = d.id ∧
      r.subject = some d.subject ∧
      r.from_email = some d.from_email ∧
      r.body_text = some d.body_text ∧
      r.category = (s.emails.find? (emailKeyMatches uid d.id)).bind
        EmailRow.category := by
  refine ⟨rfl, ?_⟩
  rw [find?_emails_after_save]
  have hcat := payload_cat_none uid d cat hfail
  cases hf : s.emails.find? (emailKeyMatches uid d.id) with
  | none =>
    refine ⟨insertEmailRow (buildEmailPayload uid d cat) s.nextEmailId,
      rfl, rfl, rfl, rfl, rfl, rfl, ?_⟩
    simp [insertEmailRow, hcat]
  | some r0 =>
    refine ⟨applyEmailUpdate (buildEmailPayload uid d cat) r0,
      rfl, ?_, ?_, rfl, rfl, rfl, ?_⟩
    · have := List.find?_some hf
      simp only [emailKeyMatches, Bool.and_eq_true, beq_iff_eq] at this
      exact this.1
    · have := List.find?_some hf
      simp only [emailKeyMatches, Bool.and_eq_true, beq_iff_eq] at this
      exact this.2
    · simp [applyEmailUpdate, hcat]

/-- Witness for C9: ingesting into the empty store with a raising
categorization service still stores the email. -/
theorem save_email_categorization_failure_isolated_witness :
    (save_email_to_db gsFresh "u1" (sampleDetails "m1" "T1" 50)
        CatOutcome.raised).1 = true ∧
    ∃ r, (((save_email_to_db gsFresh "u1" (sampleDetails "m1" "T1" 50)
        CatOutcome.raised).2).emails).find? (emailKeyMatches "u1" (sampleDetails "m1" "T1" 50).id) = some r ∧
      r.user_id = "u1" ∧ r.gmail_id = (sampleDetails "m1" "T1" 50).id ∧
      r.subject = some (sampleDetails "m1" "T1" 50).subject ∧
      r.from_email = some (sampleDetails "m1" "T1" 50).from_email ∧
      r.body_text = some (sampleDetails "m1" "T1" 50).body_text ∧
      r.category = (gsFresh.emails.find?
        (emailKeyMatches "u1" (sampleDetails "m1" "T1" 50).id)).bind
        EmailRow.category :=
  save_email_categorization_failure_isolated gsFresh "u1"
    (sampleDetails "m1" "T1" 50) CatOutcome.raised (by decide)

/-- C10: every row written by `_save_email_to_db` carries
`is_read = false`; since the write is an upsert on `(user_id, gmail_id)`,
re-ingesting a message previously marked read via `mark_email_as_read`
resets its stored read flag to unread. -/
theorem save_email_resets_read_flag
    (s : GState) (uid : String) (d : EmailDetails) (cat : CatOutcome)
    (r0 : EmailRow) (h0 : s.emails.find? (emailKeyMatches uid d.id) = some r0) :
    (∀ (s2 : GState) (r2 : EmailRow),
        (((save_email_to_db s2 uid d cat).2).emails).find?
          (emailKeyMatches uid d.id) = some r2 → r2.is_read = false) ∧
    (((mark_email_as_read s uid r0.id).2).emails).find?
        (emailKeyMatches uid d.id) = some { r0 with is_read := true } ∧
    ∃ r2, ((save_email_to_db ((mark_email_as_read s uid r0.id).2) uid d
        cat).2).emails.find? (emailKeyMatches uid d.id) = some r2 ∧
      r2.is_read = false := by
  have hwrite : ∀ (s2 : GState) (r2 : EmailRow),
      (((save_email_to_db s2 uid d cat).2).emails).find?
        (emailKeyMatches uid d.id) = some r2 → r2.is_read = false := by
    intro s2 r2 h
    rw [find?_emails_after_save] at h
    cases hf : s2.emails.find? (emailKeyMatches uid d.id) with
    | none =>
      rw [hf] at h
      have : r2 = insertEmailRow (buildEmailPayload uid d cat) s2.nextEmailId := by
        simpa using h.symm
      rw [this]
      rfl
    | some q =>
      rw [hf] at h
      have : r2 = applyEmailUpdate (buildEmailPayload uid d cat) q := by
        simpa using h.symm
      rw [this]
      rfl
  have hkey := List.find?_some h0
  have hread : (((mark_email_as_read s uid r0.id).2).emails).find?
      (emailKeyMatches uid d.id) = some { r0 with is_read := true } := by
    unfold mark_email_as_read
    dsimp only
    rw [find?_map_pred_stable _ _ _ (by
      intro a
      by_cases ha : (a.user_id == uid && a.id == r0.id) = true
      · rw [if_pos ha]
        rfl
      · rw [if_neg ha])]
    rw [h0]
    simp only [Option.map_some']
    have hu : (r0.user_id == uid) = true := by
      simp only [emailKeyMatches, Bool.and_eq_true] at hkey
      exact hkey.1
    rw [if_pos (by simp [hu])]
  refine ⟨hwrite, hread, ?_⟩
  cases hfind : ((save_email_to_db ((mark_email_as_read s uid r0.id).2) uid d
      cat).2).emails.find? (emailKeyMatches uid d.id) with
  | none =>
    rw [find?_emails_after_save, hread] at hfind
    exact absurd hfind (by simp)
  | some r2 => exact ⟨r2, rfl, hwrite _ r2 hfind⟩

/-- Witness for C10: a stored, read copy of a message goes back to unread
when the same message is ingested again. -/
theorem save_email_resets_read_flag_witness :
    (∀ (s2 : GState) (r2 : EmailRow),
        (((save_email_to_db s2 "u1" (sampleDetails "m1" "T1" 50)
            CatOutcome.raised).2).emails).find?
          (emailKeyMatches "u1" (sampleDetails "m1" "T1" 50).id) = some r2 →
          r2.is_read = false) ∧
    (((mark_email_as_read gsOneEmail "u1" storedEmailRow.id).2).emails).find?
        (emailKeyMatches "u1" (sampleDetails "m1" "T1" 50).id) =
      some { storedEmailRow with is_read := true } ∧
    ∃ r2, ((save_email_to_db ((mark_email_as_read gsOneEmail "u1"
        storedEmailRow.id).2) "u1" (sampleDetails "m1" "T1" 50)
        CatOutcome.raised).2).emails.find?
        (emailKeyMatches "u1" (sampleDetails "m1" "T1" 50).id) = some r2 ∧
      r2.is_read = false :=
  save_email_resets_read_flag gsOneEmail "u1" (sampleDetails "m1" "T1" 50)
    CatOutcome.raised storedEmailRow (by decide)

/-! ### Claim theorem about reply failure handling -/

/-- C6: whenever a `send_email_reply` call fails — the auth gate fails,
the original message is absent from local storage, the profile lookup
raises, or the provider send raises — the call returns a structured error
dictionary and performs no email-storage mutation: the `emails` table is
exactly what it was before the call. -/
theorem send_reply_failure_no_storage_mutation
    (s : GState) (uid : String) (req : ReplyRequest) (env : ReplyEnv)
    (hfail : (get_authenticated_gmail_service s uid env.now env.net).1 = false ∨
      get_single_email_from_db
        ((get_authenticated_gmail_service s uid env.now env.net).2) uid
        req.original_email_id = none ∨
      env.profile = none ∨ env.send = none) :
    (∃ m, (send_email_reply s uid req env).1 = ReplyResult.errorResult m) ∧
    ((send_email_reply s uid req env).2).emails = s.emails := by
  unfold send_email_reply
  cases hauth : get_authenticated_gmail_service s uid env.now env.net with
  | mk authOk s1 =>
    have hs1 : s1.emails = s.emails := by
      have h := auth_emails_frame s uid env.now env.net
      rw [hauth] at h
      exact h
    cases authOk with
    | false => exact ⟨⟨"Authentication failed", rfl⟩, hs1⟩
    | true =>
      dsimp only
      cases horig : get_single_email_from_db s1 uid req.original_email_id with
      | none => exact ⟨⟨"Original email not found in database", rfl⟩, hs1⟩
      | some orig =>
        dsimp only
        cases hprof : env.profile with
        | none => exact ⟨⟨"Failed to send reply", rfl⟩, hs1⟩
        | some user_email =>
          dsimp only
          cases hsend : env.send with
          | none => exact ⟨⟨"Failed to send reply", rfl⟩, hs1⟩
          | some sentId =>
            exfalso
            rw [hauth] at hfail
            rcases hfail with h | h | h | h
            · exact Bool.noConfusion h
            · rw [horig] at h
              exact Option.some_ne_none orig h
            · rw [hprof] at h
              exact Option.some_ne_none user_email h
            · rw [hsend] at h
              exact Option.some_ne_none sentId h

/-- Witness for C6: a provider send failure against a stored original
returns an error and leaves the single stored email untouched. -/
theorem send_reply_failure_no_storage_mutation_witness :
    (∃ m, (send_email_reply gsOneEmail "u1"
      { original_email_id := "m1", reply_body := "hello",
        reply_subject := none, to_addrs := none, cc := none, bcc := none }
      { now := 0, net := RefreshOutcome.err, profile := some "me@example.com",
        send := none, cat := CatOutcome.raised }).1 =
      ReplyResult.errorResult m) ∧
    ((send_email_reply gsOneEmail "u1"
      { original_email_id := "m1", reply_body := "hello",
        reply_subject := none, to_addrs := none, cc := none, bcc := none }
      { now := 0, net := RefreshOutcome.err, profile := some "me@example.com",
        send := none, cat := CatOutcome.raised }).2).emails =
      gsOneEmail.emails :=
  send_reply_failure_no_storage_mutation gsOneEmail "u1"
    { original_email_id := "m1", reply_body := "hello",
      reply_subject := none, to_addrs := none, cc := none, bcc := none }
    { now := 0, net := RefreshOutcome.err, profile := some "me@example.com",
      send := none, cat := CatOutcome.raised }
    (Or.inr (Or.inr (Or.inr rfl)))

/-! ### The deduplication invariant of ingestion -/

theorem any_key_iff (l : List EmailRow) (u g : String) :
    l.any (emailKeyMatches u g) = true ↔ (u, g) ∈ l.map emailKey := by
  rw [List.any_eq_true]
  simp only [List.mem_map, emailKeyMatches, emailKey, Bool.and_eq_true,
    beq_iff_eq, Prod.mk.injEq]

theorem upsert_keys_update (s : GState) (p : EmailUpsertData)
    (h : s.emails.any (emailKeyMatches p.user_id p.gmail_id) = true) :
    (upsertEmail s p).emails.map emailKey = s.emails.map emailKey := by
  unfold upsertEmail
  rw [if_pos h]
  dsimp only
  rw [List.map_map]
  apply List.map_congr_left
  intro r _
  simp only [Function.comp_apply]
  by_cases hr : emailKeyMatches p.user_id p.gmail_id r = true
  · rw [if_pos hr]
    rfl
  · rw [if_neg hr]

theorem upsert_keys_insert (s : GState) (p : EmailUpsertData)
    (h : ¬ s.emails.any (emailKeyMatches p.user_id p.gmail_id) = true) :
    (upsertEmail s p).emails.map emailKey =
      s.emails.map emailKey ++ [(p.user_id, p.gmail_id)] := by
  unfold upsertEmail
  rw [if_neg h]
  dsimp only
  rw [List.map_append]
  rfl

theorem upsert_keys_mem (s : GState) (p : EmailUpsertData) (k : String × String) :
    k ∈ (upsertEmail s p).emails.map emailKey ↔
      k ∈ s.emails.map emailKey ∨ k = (p.user_id, p.gmail_id) := by
  by_cases h : s.emails.any (emailKeyMatches p.user_id p.gmail_id) = true
  · rw [upsert_keys_update s p h]
    constructor
    · exact Or.inl
    · rintro (hk | rfl)
      · exact hk
      · exact (any_key_iff _ _ _).mp h
  · rw [upsert_keys_insert s p h]
    simp [List.mem_append]

theorem upsert_keys_nodup (s : GState) (p : EmailUpsertData)
    (h : (s.emails.map emailKey).Nodup) :
    ((upsertEmail s p).emails.map emailKey).Nodup := by
  by_cases ha : s.emails.any (emailKeyMatches p.user_id p.gmail_id) = true
  · rw [upsert_keys_update s p ha]
    exact h
  · rw [upsert_keys_insert s p ha]
    rw [List.nodup_append]
    refine ⟨h, List.nodup_singleton _, ?_⟩
    intro k hk hk'
    simp only [List.mem_singleton] at hk'
    subst hk'
    exact ha ((any_key_iff _ _ _).mpr hk)

theorem fetchStep_keys_mem (s : GState) (uid : String) (only_new : Bool)
    (m : ProviderMessage) (k : String × String) (hid : m.details.id = m.msg_id) :
    k ∈ (fetchStep s uid only_new m).emails.map emailKey ↔
      k ∈ s.emails.map emailKey ∨ k = (uid, m.msg_id) := by
  unfold fetchStep
  by_cases h : (only_new && email_exists_in_db s uid m.msg_id) = true
  · rw [if_pos h]
    have hex : (uid, m.msg_id) ∈ s.emails.map emailKey := by
      have h2 := (Bool.and_eq_true _ _).mp h |>.2
      unfold email_exists_in_db at h2
      exact (any_key_iff _ _ _).mp h2
    constructor
    · exact Or.inl
    · rintro (hk | rfl)
      · exact hk
      · exact hex
  · rw [if_neg h]
    unfold save_email_to_db
    dsimp only
    have hm := upsert_keys_mem s (buildEmailPayload uid m.details m.cat) k
    rw [hm]
    unfold buildEmailPayload
    dsimp only
    rw [hid]

theorem fetchStep_keys_nodup (s : GState) (uid : String) (only_new : Bool)
    (m : ProviderMessage) (h : (s.emails.map emailKey).Nodup) :
    ((fetchStep s uid only_new m).emails.map emailKey).Nodup := by
  unfold fetchStep
  by_cases hc : (only_new && email_exists_in_db s uid m.msg_id) = true
  · rw [if_pos hc]
    exact h
  · rw [if_neg hc]
    exact upsert_keys_nodup s _ h

theorem foldFetch_keys (uid : String) (only_new : Bool)
    (msgs : List ProviderMessage) :
    ∀ s : GState, (∀ m ∈ msgs, m.details.id = m.msg_id) →
    (∀ k, k ∈ ((msgs.foldl (fun st m => fetchStep st uid only_new m) s).emails.map
        emailKey) ↔
      k ∈ s.emails.map emailKey ∨ k ∈ msgs.map (fun m => (uid, m.msg_id))) ∧
    ((s.emails.map emailKey).Nodup →
      ((msgs.foldl (fun st m => fetchStep st uid only_new m) s).emails.map
        emailKey).Nodup) := by
  induction msgs with
  | nil =>
    intro s _
    simp
  | cons m ms ih =>
    intro s hids
    rw [List.foldl_cons]
    obtain ⟨ihmem, ihnodup⟩ :=
      ih (fetchStep s uid only_new m)
        (fun m' hm' => hids m' (List.mem_cons_of_mem _ hm'))
    constructor
    · intro k
      rw [ihmem k,
        fetchStep_keys_mem s uid only_new m k (hids m (List.mem_cons_self _ _))]
      simp only [List.map_cons, List.mem_cons]
      tauto
    · intro hnd
      exact ihnodup (fetchStep_keys_nodup s uid only_new m hnd)

theorem fetch_keys (s : GState) (c : FetchCall)
    (hids : ∀ m ∈ c.msgs, m.details.id = m.msg_id) :
    (∀ k, k ∈ (fetch_gmail_emails s c).emails.map emailKey ↔
      k ∈ s.emails.map emailKey ∨
        ((get_authenticated_gmail_service s c.uid c.now c.net).1 = true ∧
         k ∈ c.msgs.map (fun m => (c.uid, m.msg_id)))) ∧
    ((s.emails.map emailKey).Nodup →
      ((fetch_gmail_emails s c).emails.map emailKey).Nodup) := by
  unfold fetch_gmail_emails
  cases hauth : get_authenticated_gmail_service s c.uid c.now c.net with
  | mk authOk s1 =>
    have hs1 : s1.emails = s.emails := by
      have h := auth_emails_frame s c.uid c.now c.net
      rw [hauth] at h
      exact h
    cases authOk with
    | false =>
      dsimp only
      rw [hs1]
      constructor
      · intro k
        simp
      · exact fun h => h
    | true =>
      dsimp only
      obtain ⟨hmem, hnodup⟩ := foldFetch_keys c.uid c.only_new c.msgs s1 hids
      rw [hs1] at hmem hnodup
      constructor
      · intro k
        rw [hmem k]
        simp
      · exact hnodup

theorem runFetches_cons_fst (s : GState) (c : FetchCall) (rest : List FetchCall) :
    (runFetchesWithSeen s (c :: rest)).1 =
      (runFetchesWithSeen (fetch_gmail_emails s c) rest).1 := rfl

theorem runFetches_cons_snd (s : GState) (c : FetchCall) (rest : List FetchCall) :
    (runFetchesWithSeen s (c :: rest)).2 =
      (if (get_authenticated_gmail_service s c.uid c.now c.net).1 then
        c.msgs.map (fun m => (c.uid, m.msg_id)) else []) ++
      (runFetchesWithSeen (fetch_gmail_emails s c) rest).2 := rfl

theorem runFetches_keys (calls : List FetchCall) :
    ∀ s : GState, (∀ c ∈ calls, ∀ m ∈ c.msgs, m.details.id = m.msg_id) →
    (∀ k, k ∈ (runFetchesWithSeen s calls).1.emails.map emailKey ↔
      k ∈ s.emails.map emailKey ∨ k ∈ (runFetchesWithSeen s calls).2) ∧
    ((s.emails.map emailKey).Nodup →
      ((runFetchesWithSeen s calls).1.emails.map emailKey).Nodup) := by
  induction calls with
  | nil =>
    intro s _
    simp [runFetchesWithSeen]
  | cons c rest ih =>
    intro s hids
    obtain ⟨hcmem, hcnodup⟩ :=
      fetch_keys s c (hids c (List.mem_cons_self _ _))
    obtain ⟨ihmem, ihnodup⟩ :=
      ih (fetch_gmail_emails s c)
        (fun c' hc' => hids c' (List.mem_cons_of_mem _ hc'))
    constructor
    · intro k
      rw [runFetches_cons_fst, runFetches_cons_snd, ihmem k, hcmem k,
        List.mem_append]
      cases hauth : (get_authenticated_gmail_service s c.uid c.now c.net).1 with
      | false =>
        simp only [Bool.false_eq_true, false_and, or_false, if_false,
          List.not_mem_nil, false_or]
      | true =>
        simp only [if_true, true_and]
        tauto
    · intro hnd
      exact ihnodup (hcnodup hnd)

/-- C4: starting from a store with no emails, after any sequence of
`fetch_gmail_emails` calls (overlapping provider message sets allowed, in
any order), the stored `(user_id, gmail_id)` keys are duplicate-free and
the number of stored email rows equals the number of distinct
`(user_id, gmail_id)` pairs seen by the calls' ingestion loops. -/
theorem fetch_dedup_invariant (s0 : GState) (calls : List FetchCall)
    (hempty : s0.emails = [])
    (hids : ∀ c ∈ calls, ∀ m ∈ c.msgs, m.details.id = m.msg_id) :
    ((runFetchesWithSeen s0 calls).1.emails.map emailKey).Nodup ∧
    (runFetchesWithSeen s0 calls).1.emails.length =
      ((runFetchesWithSeen s0 calls).2).dedup.length := by
  obtain ⟨hmem, hnodup⟩ := runFetches_keys calls s0 hids
  have hnd : ((runFetchesWithSeen s0 calls).1.emails.map emailKey).Nodup := by
    apply hnodup
    rw [hempty]
    exact List.nodup_nil
  refine ⟨hnd, ?_⟩
  have hperm : List.Perm ((runFetchesWithSeen s0 calls).1.emails.map emailKey)
      ((runFetchesWithSeen s0 calls).2.dedup) := by
    refine (List.perm_ext_iff_of_nodup hnd (List.nodup_dedup _)).2 (fun k => ?_)
    rw [List.mem_dedup, hmem k, hempty]
    simp
  have hlen := hperm.length_eq
  rw [List.length_map] at hlen
  exact hlen

/-- Witness for C4: two overlapping fetch calls (`m1 m2`, then
`m2 m1 m3`) against the fresh credential. -/
theorem fetch_dedup_invariant_witness :
    ((runFetchesWithSeen gsFresh [fetchCallA, fetchCallB]).1.emails.map
      emailKey).Nodup ∧
    (runFetchesWithSeen gsFresh [fetchCallA, fetchCallB]).1.emails.length =
      ((runFetchesWithSeen gsFresh [fetchCallA, fetchCallB]).2).dedup.length :=
  fetch_dedup_invariant gsFresh [fetchCallA, fetchCallB] (by decide) (by decide)

/-! ### Sorting and maximum lemmas for thread assembly -/

theorem sortAscBy_perm {α : Type} (key : α → Nat) (l : List α) :
    List.Perm (sortAscBy key l) l :=
  List.perm_insertionSort _ l

theorem sortAscBy_pairwise {α : Type} (key : α → Nat) (l : List α) :
    (sortAscBy key l).Pairwise (fun a b => key a ≤ key b) := by
  haveI : IsTotal α (fun a b => key a ≤ key b) := ⟨fun a b => Nat.le_total _ _⟩
  haveI : IsTrans α (fun a b => key a ≤ key b) :=
    ⟨fun _ _ _ hab hbc => Nat.le_trans hab hbc⟩
  exact List.sorted_insertionSort _ l

theorem sortDescBy_perm {α : Type} (key : α → Nat) (l : List α) :
    List.Perm (sortDescBy key l) l :=
  List.perm_insertionSort _ l

theorem sortDescBy_pairwise {α : Type} (key : α → Nat) (l : List α) :
    (sortDescBy key l).Pairwise (fun a b => key b ≤ key a) := by
  haveI : IsTotal α (fun a b => key b ≤ key a) :=
    ⟨fun a b => (Nat.le_total (key b) (key a)).imp id id⟩
  haveI : IsTrans α (fun a b => key b ≤ key a) :=
    ⟨fun _ _ _ hab hbc => Nat.le_trans hbc hab⟩
  exact List.sorted_insertionSort _ l

theorem pyFoldMax_spec {α : Type} (key : α → Nat) (xs : List α) :
    ∀ x : α,
      (xs.foldl (fun m y => if key m < key y then y else m) x = x ∨
       xs.foldl (fun m y => if key m < key y then y else m) x ∈ xs) ∧
      key x ≤ key (xs.foldl (fun m y => if key m < key y then y else m) x) ∧
      ∀ y ∈ xs, key y ≤ key (xs.foldl (fun m y => if key m < key y then y else m) x) := by
  induction xs with
  | nil =>
    intro x
    simp
  | cons y ys ih =>
    intro x
    rw [List.foldl_cons]
    obtain ⟨hmem, hle, hall⟩ := ih (if key x < key y then y else x)
    have hx1 : key x ≤ key (if key x < key y then y else x) := by
      by_cases h : key x < key y
      · rw [if_pos h]; exact Nat.le_of_lt h
      · rw [if_neg h]
    have hy1 : key y ≤ key (if key x < key y then y else x) := by
      by_cases h : key x < key y
      · rw [if_pos h]
      · rw [if_neg h]; exact Nat.le_of_not_lt h
    refine ⟨?_, Nat.le_trans hx1 hle, ?_⟩
    · by_cases hc : key x < key y
      · rw [if_pos hc] at hmem ⊢
        rcases hmem with h | h
        · rw [h]
          exact Or.inr (List.mem_cons_self _ _)
        · exact Or.inr (List.mem_cons_of_mem _ h)
      · rw [if_neg hc] at hmem ⊢
        rcases hmem with h | h
        · rw [h]
          exact Or.inl rfl
        · exact Or.inr (List.mem_cons_of_mem _ h)
    · intro z hz
      rcases List.mem_cons.mp hz with rfl | hz'
      · exact Nat.le_trans hy1 hle
      · exact hall z hz'

theorem pyMaxBy_spec {α : Type} (key : α → Nat) (l : List α) (h : l ≠ []) :
    ∃ x, pyMaxBy key l = some x ∧ x ∈ l ∧ ∀ y ∈ l, key y ≤ key x := by
  cases l with
  | nil => exact absurd rfl h
  | cons a as =>
    obtain ⟨hmem, hle, hall⟩ := pyFoldMax_spec key as a
    refine ⟨_, rfl, ?_, ?_⟩
    · rcases hmem with h | h
      · rw [h]; exact List.mem_cons_self _ _
      · exact List.mem_cons_of_mem _ h
    · intro y hy
      rcases List.mem_cons.mp hy with rfl | hy'
      · exact hle
      · exact hall y hy'

theorem le_maxNat (l : List Nat) (a : Nat) (h : a ∈ l) : a ≤ maxNat l := by
  induction l with
  | nil => simp at h
  | cons b bs ih =>
    unfold maxNat
    rw [List.foldr_cons]
    rcases List.mem_cons.mp h with rfl | h'
    · exact Nat.le_max_left _ _
    · exact Nat.le_trans (ih h') (Nat.le_max_right _ _)

theorem maxNat_le (l : List Nat) (b : Nat) (h : ∀ a ∈ l, a ≤ b) (hb : 0 ≤ b) :
    maxNat l ≤ b := by
  induction l with
  | nil => exact hb
  | cons c cs ih =>
    unfold maxNat
    rw [List.foldr_cons]
    exact Nat.max_le.mpr ⟨h c (List.mem_cons_self _ _),
      ih (fun a ha => h a (List.mem_cons_of_mem _ ha))⟩

theorem maxNat_eq_key {α : Type} (key : α → Nat) (l : List α) (x : α)
    (hx : x ∈ l) (hall : ∀ y ∈ l, key y ≤ key x) :
    maxNat (l.map key) = key x := by
  apply Nat.le_antisymm
  · apply maxNat_le
    · intro a ha
      obtain ⟨y, hy, rfl⟩ := List.mem_map.mp ha
      exact hall y hy
    · exact Nat.zero_le _
  · exact le_maxNat _ _ (List.mem_map_of_mem key hx)

theorem pairwise_lt_of_sorted_nodup {α : Type} (key : α → Nat) (l : List α)
    (hs : l.Pairwise (fun a b => key a ≤ key b)) (hn : (l.map key).Nodup) :
    (l.map key).Pairwise (fun a b => a < b) := by
  have hne : l.Pairwise (fun a b => key a ≠ key b) := List.pairwise_map.mp hn
  refine List.pairwise_map.mpr ?_
  exact (hs.and hne).imp (fun hab => Nat.lt_of_le_of_ne hab.1 hab.2)

/-! ### Grouping lemmas for the thread map -/

theorem lookupGroup_add_same (m : List (String × List FormattedEmail))
    (k : String) (e : FormattedEmail) :
    lookupGroup (addToGroups k e m) k = lookupGroup m k ++ [e] := by
  induction m with
  | nil => simp [addToGroups, lookupGroup, List.find?_cons]
  | cons g rest ih =>
    obtain ⟨gk, ges⟩ := g
    unfold addToGroups
    by_cases h : gk = k
    · rw [if_pos h]
      subst h
      simp [lookupGroup, List.find?_cons]
    · rw [if_neg h]
      have hb : (gk == k) = false := by simpa using h
      unfold lookupGroup
      rw [List.find?_cons, List.find?_cons]
      dsimp only
      rw [hb]
      exact ih

theorem lookupGroup_add_other (m : List (String × List FormattedEmail))
    (k k2 : String) (e : FormattedEmail) (h : k2 ≠ k) :
    lookupGroup (addToGroups k e m) k2 = lookupGroup m k2 := by
  induction m with
  | nil =>
    have hb : (k == k2) = false := by simpa using (Ne.symm h)
    simp [addToGroups, lookupGroup, List.find?_cons, hb]
  | cons g rest ih =>
    obtain ⟨gk, ges⟩ := g
    unfold addToGroups
    by_cases hg : gk = k
    · rw [if_pos hg]
      subst hg
      have hb : (gk == k2) = false := by
        simpa using fun he => h he.symm
      unfold lookupGroup
      rw [List.find?_cons, List.find?_cons]
      dsimp only
      rw [hb]
    · rw [if_neg hg]
      unfold lookupGroup
      rw [List.find?_cons, List.find?_cons]
      dsimp only
      cases hb : (gk == k2) with
      | true => rfl
      | false => exact ih

theorem lookupGroup_groupEmails_aux (rows : List EmailRow) (tid : String) :
    ∀ m, lookupGroup
        (rows.foldl (fun m r => addToGroups (effThreadKey r) (fmtWithThread r) m) m)
        tid =
      lookupGroup m tid ++
        (rows.filter (fun r => effThreadKey r == tid)).map fmtWithThread := by
  induction rows with
  | nil =>
    intro m
    simp
  | cons r rs ih =>
    intro m
    rw [List.foldl_cons, ih]
    by_cases h : effThreadKey r = tid
    · have hf : (effThreadKey r == tid) = true := by simpa using h
      rw [h, lookupGroup_add_same]
      simp [List.filter_cons, hf, List.append_assoc]
    · have hf : (effThreadKey r == tid) = false := by simpa using h
      rw [lookupGroup_add_other m (effThreadKey r) tid _ (fun he => h he.symm)]
      simp [List.filter_cons, hf]

theorem lookupGroup_groupEmails (rows : List EmailRow) (tid : String) :
    lookupGroup (groupEmails rows) tid =
      (rows.filter (fun r => effThreadKey r == tid)).map fmtWithThread := by
  unfold groupEmails
  rw [lookupGroup_groupEmails_aux]
  simp [lookupGroup]

theorem mkThread_mem_inbox_all (s : GState) (uid tid : String)
    (hne : lookupGroup (groupEmails (sortDescBy rowDateKey
        (s.emails.filter (fun r => r.user_id == uid)))) tid ≠ []) :
    mkThreadListItem tid (lookupGroup (groupEmails (sortDescBy rowDateKey
        (s.emails.filter (fun r => r.user_id == uid)))) tid) ∈
      inbox_threads_all s uid := by
  unfold inbox_threads_all
  dsimp only
  apply (sortDescBy_perm threadDateKey _).mem_iff.mpr
  unfold lookupGroup at hne ⊢
  cases hf : (groupEmails (sortDescBy rowDateKey
      (s.emails.filter (fun r => r.user_id == uid)))).find?
      (fun g => g.1 == tid) with
  | none =>
    rw [hf] at hne
    exact absurd rfl hne
  | some grp =>
    dsimp only
    have hmem := List.mem_of_find?_eq_some hf
    have hk : grp.1 = tid := by simpa using List.find?_some hf
    have hmap : mkThreadListItem grp.1 grp.2 ∈
        (groupEmails (sortDescBy rowDateKey
          (s.emails.filter (fun r => r.user_id == uid)))).map
          (fun g => mkThreadListItem g.1 g.2) :=
      List.mem_map_of_mem _ hmem
    rw [hk] at hmap
    exact hmap

theorem mkThreadListItem_spec (tid : String) (es : List FormattedEmail)
    (hne : es ≠ []) :
    (mkThreadListItem tid es).thread_id = tid ∧
    List.Perm (mkThreadListItem tid es).emails es ∧
    (mkThreadListItem tid es).emails.Pairwise
      (fun a b => fmtDateKey a ≤ fmtDateKey b) ∧
    (mkThreadListItem tid es).email_count = es.length ∧
    ∃ latest, latest ∈ es ∧ (∀ y ∈ es, fmtDateKey y ≤ fmtDateKey latest) ∧
      (mkThreadListItem tid es).latest_date_sent = latest.date_sent := by
  have hsperm := sortAscBy_perm fmtDateKey es
  have hsort := sortAscBy_pairwise fmtDateKey es
  have hsne : sortAscBy fmtDateKey es ≠ [] := by
    intro h0
    rw [h0] at hsperm
    exact hne (hsperm.symm.eq_nil)
  obtain ⟨latest, hlmax, hlmem, hlall⟩ :=
    pyMaxBy_spec fmtDateKey (sortAscBy fmtDateKey es) hsne
  unfold mkThreadListItem
  dsimp only
  rw [hlmax]
  refine ⟨rfl, hsperm, hsort, hsperm.length_eq, latest,
    hsperm.mem_iff.mp hlmem, ?_, rfl⟩
  intro y hy
  exact hlall y (hsperm.mem_iff.mpr hy)

theorem latest_date_is_max {β : Type} (members : List EmailRow)
    (f : EmailRow → β) (date : β → Option Nat)
    (hdate : ∀ r, date (f r) = r.date_sent)
    (hdates : ∀ r ∈ members, r.date_sent.isSome = true)
    (es : List β) (hperm : List.Perm es (members.map f))
    (latest : β) (hmem : latest ∈ es)
    (hall : ∀ y ∈ es, (date y).getD 0 ≤ (date latest).getD 0) :
    date latest = some (maxNat (members.map rowDateKey)) := by
  obtain ⟨r0, hr0, hf0⟩ := List.mem_map.mp (hperm.mem_iff.mp hmem)
  have hmax : maxNat (members.map rowDateKey) = rowDateKey r0 := by
    apply maxNat_eq_key rowDateKey members r0 hr0
    intro y hy
    have hy2 : f y ∈ es := hperm.mem_iff.mpr (List.mem_map_of_mem f hy)
    have hle := hall (f y) hy2
    rw [hdate y, ← hf0, hdate r0] at hle
    exact hle
  obtain ⟨v, hv⟩ := Option.isSome_iff_exists.mp (hdates r0 hr0)
  rw [← hf0, hdate r0, hv, hmax]
  unfold rowDateKey
  rw [hv]
  rfl

theorem group_list_perm (s : GState) (uid tid : String)
    (hgroup : s.emails.filter
        (fun r => r.user_id == uid && effThreadKey r == tid) =
      threadMembers s uid tid) :
    List.Perm ((sortDescBy rowDateKey
        (s.emails.filter (fun r => r.user_id == uid))).filter
        (fun r => effThreadKey r == tid))
      (threadMembers s uid tid) := by
  have hp := (sortDescBy_perm rowDateKey
    (s.emails.filter (fun r => r.user_id == uid))).filter
    (fun r => effThreadKey r == tid)
  rw [List.filter_filter] at hp
  have hcongr : s.emails.filter
      (fun a => (effThreadKey a == tid) && (a.user_id == uid)) =
      s.emails.filter (fun r => r.user_id == uid && effThreadKey r == tid) :=
    List.filter_congr (fun a _ => Bool.and_comm _ _)
  rw [hcongr, hgroup] at hp
  exact hp

theorem inbox_threads_sorted_desc (s : GState) (uid : String)
    (lim off : Nat) :
    ((get_inbox_threads s uid lim off).map threadDateKey).Pairwise
      (fun a b => b ≤ a) := by
  unfold get_inbox_threads
  by_cases h : (s.emails.filter (fun r => r.user_id == uid)).isEmpty = true
  · rw [if_pos h]
    simp
  · rw [if_neg h]
    have hall : (inbox_threads_all s uid).Pairwise
        (fun a b => threadDateKey b ≤ threadDateKey a) := by
      unfold inbox_threads_all
      exact sortDescBy_pairwise threadDateKey _
    have hsub : List.Sublist (((inbox_threads_all s uid).drop off).take lim)
        (inbox_threads_all s uid) :=
      (List.take_sublist _ _).trans (List.drop_sublist _ _)
    exact List.pairwise_map.mpr (hall.sublist hsub)

theorem get_inbox_threads_all_of_le (s : GState) (uid : String) (limit : Nat)
    (hne : s.emails.filter (fun r => r.user_id == uid) ≠ [])
    (hlim : (inbox_threads_all s uid).length ≤ limit) :
    get_inbox_threads s uid limit 0 = inbox_threads_all s uid := by
  unfold get_inbox_threads
  rw [if_neg (by simpa [List.isEmpty_iff] using hne)]
  rw [List.drop_zero, List.take_of_length_le hlim]

theorem get_thread_by_id_spec (s : GState) (uid tid : String)
    (hne : threadMembers s uid tid ≠ []) :
    ∃ th latest,
      get_thread_by_id s uid tid = some th ∧
      th.emails =
        (sortAscBy rowDateKey (threadMembers s uid tid)).map format_full_email ∧
      latest ∈ th.emails ∧
      (∀ y ∈ th.emails, fullDateKey y ≤ fullDateKey latest) ∧
      th.latest_date_sent = latest.base.date_sent ∧
      th.email_count = th.emails.length := by
  have hrneA : sortAscBy rowDateKey (threadMembers s uid tid) ≠ [] := by
    intro h0
    have hp := sortAscBy_perm rowDateKey (threadMembers s uid tid)
    rw [h0] at hp
    exact hne hp.symm.eq_nil
  have hfne : (sortAscBy rowDateKey (threadMembers s uid tid)).map
      format_full_email ≠ [] := by
    intro h0
    exact hrneA (by simpa using h0)
  obtain ⟨latest, hmax, hlmem, hlall⟩ := pyMaxBy_spec fullDateKey _ hfne
  have hgt : get_thread_by_id s uid tid = some
      { thread_id := tid,
        subject := latest.base.subject,
        latest_sender := latest.base.sender,
        latest_from_email := latest.base.from_email,
        latest_date_sent := latest.base.date_sent,
        email_count := ((sortAscBy rowDateKey (threadMembers s uid tid)).map
          format_full_email).length,
        unread_count := (((sortAscBy rowDateKey (threadMembers s uid tid)).map
          format_full_email).filter (fun e => e.base.is_unread)).length,
        has_attachments := ((sortAscBy rowDateKey (threadMembers s uid tid)).map
          format_full_email).any (fun e => e.base.has_attachments),
        is_unread := 0 < (((sortAscBy rowDateKey (threadMembers s uid tid)).map
          format_full_email).filter (fun e => e.base.is_unread)).length,
        labels := latest.base.labels,
        emails := (sortAscBy rowDateKey (threadMembers s uid tid)).map
          format_full_email } := by
    unfold get_thread_by_id
    dsimp only
    rw [if_neg (by simpa [List.isEmpty_iff] using hrneA), hmax]
    rfl
  exact ⟨_, latest, hgt, rfl, hlmem, hlall, rfl, rfl⟩

/-- C5: for stored emails sharing a thread with pairwise-distinct send
instants, `get_thread_by_id` returns the members ordered ascending by
send instant (oldest first) with `latest_date_sent` the maximal member
instant, and `get_inbox_threads` reports the same thread with the same
`latest_date_sent`, member count and ascending member order, while the
thread list itself is ordered descending by each thread's latest member
send instant. -/
theorem thread_view_ordering
    (s : GState) (uid tid : String) (limit : Nat)
    (hne : threadMembers s uid tid ≠ [])
    (hgroup : s.emails.filter
        (fun r => r.user_id == uid && effThreadKey r == tid) =
      threadMembers s uid tid)
    (hdates : ∀ r ∈ threadMembers s uid tid, r.date_sent.isSome = true)
    (hdist : (List.map rowDateKey (threadMembers s uid tid)).Nodup)
    (hlim : (inbox_threads_all s uid).length ≤ limit) :
    (∃ th, get_thread_by_id s uid tid = some th ∧
      List.Perm th.emails ((threadMembers s uid tid).map format_full_email) ∧
      (th.emails.map fullDateKey).Pairwise (fun a b => a < b) ∧
      th.latest_date_sent =
        some (maxNat ((threadMembers s uid tid).map rowDateKey))) ∧
    (∃ tl, tl ∈ get_inbox_threads s uid limit 0 ∧
      tl.thread_id = tid ∧
      tl.email_count = (threadMembers s uid tid).length ∧
      (tl.emails.map fmtDateKey).Pairwise (fun a b => a < b) ∧
      tl.latest_date_sent =
        some (maxNat ((threadMembers s uid tid).map rowDateKey))) ∧
    ∀ lim off : Nat,
      ((get_inbox_threads s uid lim off).map threadDateKey).Pairwise
        (fun a b => b ≤ a) := by
  have hpermA := sortAscBy_perm rowDateKey (threadMembers s uid tid)
  have hsortA := sortAscBy_pairwise rowDateKey (threadMembers s uid tid)
  obtain ⟨th, latest, hgt, hems, hlmem, hlall, hldate, hcount⟩ :=
    get_thread_by_id_spec s uid tid hne
  have hpermF : List.Perm th.emails
      ((threadMembers s uid tid).map format_full_email) := by
    rw [hems]
    exact hpermA.map format_full_email
  refine ⟨⟨th, hgt, hpermF, ?_, ?_⟩, ?_, ?_⟩
  · -- strictly ascending member keys in the detail view
    have hple : th.emails.Pairwise (fun a b => fullDateKey a ≤ fullDateKey b) := by
      rw [hems]
      exact List.Pairwise.map _ (fun a b h => h) hsortA
    have hnodupA : (th.emails.map fullDateKey).Nodup := by
      have hmm : th.emails.map fullDateKey =
          (sortAscBy rowDateKey (threadMembers s uid tid)).map rowDateKey := by
        rw [hems, List.map_map]
        rfl
      rw [hmm]
      exact ((hpermA.map rowDateKey).nodup_iff).mpr hdist
    exact pairwise_lt_of_sorted_nodup fullDateKey th.emails hple hnodupA
  · -- the latest member carries the maximal send instant
    rw [hldate]
    exact latest_date_is_max (threadMembers s uid tid) format_full_email
      (fun e => e.base.date_sent) (fun r => rfl) hdates th.emails hpermF
      latest hlmem hlall
  · -- the thread as reported by the list view
    have hper := group_list_perm s uid tid hgroup
    have hlk := lookupGroup_groupEmails (sortDescBy rowDateKey
      (s.emails.filter (fun r => r.user_id == uid))) tid
    have hesne : lookupGroup (groupEmails (sortDescBy rowDateKey
        (s.emails.filter (fun r => r.user_id == uid)))) tid ≠ [] := by
      rw [hlk]
      intro h0
      have h1 := List.map_eq_nil_iff.mp h0
      rw [h1] at hper
      exact hne hper.symm.eq_nil
    have hmem_all := mkThread_mem_inbox_all s uid tid hesne
    obtain ⟨hth_id, hth_perm, hth_pair, hth_count, latest2, hl2mem, hl2all,
      hl2date⟩ := mkThreadListItem_spec tid _ hesne
    have huserne : s.emails.filter (fun r => r.user_id == uid) ≠ [] := by
      obtain ⟨r, hr⟩ := List.exists_mem_of_ne_nil _ hne
      have hr2 := List.mem_filter.mp hr
      exact List.ne_nil_of_mem (List.mem_filter.mpr
        ⟨hr2.1, ((Bool.and_eq_true _ _).mp hr2.2).1⟩)
    have hout := get_inbox_threads_all_of_le s uid limit huserne hlim
    have hperm_es : List.Perm (lookupGroup (groupEmails (sortDescBy rowDateKey
        (s.emails.filter (fun r => r.user_id == uid)))) tid)
        ((threadMembers s uid tid).map fmtWithThread) := by
      rw [hlk]
      exact hper.map fmtWithThread
    refine ⟨mkThreadListItem tid _, ?_, hth_id, ?_, ?_, ?_⟩
    · rw [hout]
      exact hmem_all
    · rw [hth_count, hlk, List.length_map, hper.length_eq]
    · have hnodupB : ((mkThreadListItem tid (lookupGroup (groupEmails
          (sortDescBy rowDateKey (s.emails.filter
            (fun r => r.user_id == uid)))) tid)).emails.map fmtDateKey).Nodup := by
        have hp2 : List.Perm ((mkThreadListItem tid (lookupGroup (groupEmails
            (sortDescBy rowDateKey (s.emails.filter
              (fun r => r.user_id == uid)))) tid)).emails.map fmtDateKey)
            (((threadMembers s uid tid).map fmtWithThread).map fmtDateKey) :=
          (hth_perm.trans hperm_es).map fmtDateKey
        have hk2 : ((threadMembers s uid tid).map fmtWithThread).map fmtDateKey =
            (threadMembers s uid tid).map rowDateKey := by
          rw [List.map_map]
          rfl
        rw [hk2] at hp2
        exact hp2.nodup_iff.mpr hdist
      exact pairwise_lt_of_sorted_nodup fmtDateKey _ hth_pair hnodupB
    · rw [hl2date]
      exact latest_date_is_max (threadMembers s uid tid) fmtWithThread
        (fun e => e.date_sent) (fun r => rfl) hdates _ hperm_es latest2
        hl2mem hl2all
  · exact fun lim off => inbox_threads_sorted_desc s uid lim off

/-- Witness for C5: thread `T1` of `gsThreads` (instants 10 < 20 < 30),
with `T2` alongside, at limit 50. -/
theorem thread_view_ordering_witness :
    (∃ th, get_thread_by_id gsThreads "u1" "T1" = some th ∧
      List.Perm th.emails
        ((threadMembers gsThreads "u1" "T1").map format_full_email) ∧
      (th.emails.map fullDateKey).Pairwise (fun a b => a < b) ∧
      th.latest_date_sent =
        some (maxNat ((threadMembers gsThreads "u1" "T1").map rowDateKey))) ∧
    (∃ tl, tl ∈ get_inbox_threads gsThreads "u1" 50 0 ∧
      tl.thread_id = "T1" ∧
      tl.email_count = (threadMembers gsThreads "u1" "T1").length ∧
      (tl.emails.map fmtDateKey).Pairwise (fun a b => a < b) ∧
      tl.latest_date_sent =
        some (maxNat ((threadMembers gsThreads "u1" "T1").map rowDateKey))) ∧
    ∀ lim off : Nat,
      ((get_inbox_threads gsThreads "u1" lim off).map threadDateKey).Pairwise
        (fun a b => b ≤ a) :=
  thread_view_ordering gsThreads "u1" "T1" 50 (by decide) (by decide)
    (by decide) (by decide) (by decide)

end FinanceInbox
